import Mathlib

/-!
# Verification of the hypebot content pipeline

A shallow embedding of the parts of the `hypebot` repository that the
behavioural claims talk about: the tag extractor (`bot/utils/tags.py`),
the caption builder and publish bookkeeping (`bot/services/publisher.py`),
the state cleanup and loader (`bot/utils/state.py`), the schedule-time
parser (`bot/utils/time_utils.py`), the source parser dedup logic
(`bot/services/parser.py`) and the `Post` (de)serialisation
(`bot/models/post.py`).

Python strings are modelled as `List Char` (Unicode code points, so
`List.length` agrees with Python `len`).  Instants are modelled as
integer seconds since the Unix epoch; datetimes at second granularity
(the sub-second part of a timestamp is parsed but truncated, and none of
the claims exercises sub-second behaviour).  A `pytz` timezone is
modelled as a fixed UTC offset in seconds; DST transitions are out of
scope of every claim considered here.
-/

set_option maxRecDepth 4000

/-- Python strings as lists of Unicode code points. -/
abbrev Str := List Char

/-- ASCII decimal digit (the `\d` occurrences in the repository are only
ever matched against ASCII input). -/
def isAsciiDigit (c : Char) : Bool := '0' ≤ c && c ≤ '9'

/-- The whitespace class used by `str.strip()` / `\s`, restricted to the
ASCII whitespace characters (the only ones appearing in the repository's
inputs). -/
def isPySpace (c : Char) : Bool :=
  c = ' ' || c = '\t' || c = '\n' || c = '\x0d' || c = '\x0b' || c = '\x0c'

/-- Python `str.lower()` on the alphabet used by this repository:
ASCII letters and the Cyrillic letters appearing in the configuration
tables.  Characters outside these ranges are fixed points. -/
def pyLower (c : Char) : Char :=
  if 'A' ≤ c && c ≤ 'Z' then Char.ofNat (c.toNat + 32)
  else if 0x410 ≤ c.toNat && c.toNat ≤ 0x42F then Char.ofNat (c.toNat + 0x20)
  else if c.toNat = 0x401 then Char.ofNat 0x451
  else c

/-- `text.lower()` over the modelled alphabet. -/
def lowerStr (s : Str) : Str := s.map pyLower

/-- Python `str.strip()`: drop whitespace from both ends. -/
def pyStrip (s : Str) : Str :=
  ((s.dropWhile isPySpace).reverse.dropWhile isPySpace).reverse

/-- The word-character class `\w` of Python's `re` module over the
modelled alphabet: ASCII alphanumerics, the underscore and the Cyrillic
letters used in the tag tables. -/
def isWordChar (c : Char) : Bool :=
  ('a' ≤ c && c ≤ 'z') || ('A' ≤ c && c ≤ 'Z') || ('0' ≤ c && c ≤ '9') ||
  c = '_' || (0x410 ≤ c.toNat && c.toNat ≤ 0x44F) ||
  c.toNat = 0x401 || c.toNat = 0x451

/-- Does `pat` occur as a contiguous substring starting at position `i`?
(The model of a Python `str.find` hit at `i`.) -/
def occursAt (pat s : Str) (i : Nat) : Bool :=
  decide (pat <+: s.drop i)

/-- Python's `pat in s` substring containment. -/
def containsSub (pat s : Str) : Bool :=
  (List.range (s.length + 1)).any (occursAt pat s)

/-- Is position `i` a `\b` word boundary of `s`?  `\b` holds where exactly
one of the two neighbouring characters is a word character (positions
outside the string count as non-word). -/
def isBoundary (s : Str) (i : Nat) : Bool :=
  let at_ : Nat → Bool := fun j => if h : j < s.length then isWordChar (s.get ⟨j, h⟩) else false
  (if i = 0 then at_ 0 else at_ (i - 1) != at_ i)

/-- Model of `re.search(r'\b' + re.escape(pat) + r'\b', s)`: some position
where `pat` occurs flanked by word boundaries.  (`re.escape` makes the
pattern a literal, so the search is pure substring search plus the two
boundary conditions.) -/
def wordMatch (pat s : Str) : Bool :=
  (List.range (s.length + 1)).any fun i =>
    occursAt pat s i && isBoundary s i && isBoundary s (i + pat.length)

/-- Digits-to-number, most significant first (the `int(...)` applied to a
regex group of ASCII digits). -/
def natOfDigits (ds : Str) : Nat :=
  ds.foldl (fun n c => n * 10 + (c.toNat - '0'.toNat)) 0

/-- Python `s or t` on strings: the first operand unless it is empty. -/
def pyOrStr (s t : Str) : Str := if s = [] then t else s

/-- Python `s[:n]` supporting a possibly negative bound `n`
(`s[:n]` with `n < 0` keeps the first `len(s) + n` characters, clamped at
zero). -/
def pySliceTo (s : Str) (n : Int) : Str :=
  if 0 ≤ n then s.take n.toNat else s.take ((s.length : Int) + n).toNat

theorem length_pySliceTo (s : Str) (n : Int) :
    (pySliceTo s n).length ≤ s.length ∧
    (0 ≤ n → (pySliceTo s n).length ≤ n.toNat) := by
  constructor
  · unfold pySliceTo
    split <;> simp [List.length_take_le]
  · intro h
    simp [pySliceTo, h]

/-! ## Calendar arithmetic

The proleptic Gregorian calendar used by Python's `datetime`.  Civil
dates are converted to day counts since 1970-01-01 with the standard
era-based algorithm; instants are seconds since the epoch. -/

/-- Day count since 1970-01-01 of the civil date `y-m-d`. -/
def daysFromCivil (y : Int) (m d : Nat) : Int :=
  let yAdj : Int := y - (if m ≤ 2 then 1 else 0)
  let era : Int := Int.fdiv yAdj 400
  let yoe : Int := yAdj - era * 400
  let mp : Int := if 2 < m then (m : Int) - 3 else (m : Int) + 9
  let doy : Int := (153 * mp + 2) / 5 + (d : Int) - 1
  let doe : Int := yoe * 365 + yoe / 4 - yoe / 100 + doy
  era * 146097 + doe - 719468

/-- Civil date `(year, month, day)` of a day count since 1970-01-01. -/
def civilFromDays (z : Int) : Int × Nat × Nat :=
  let z' : Int := z + 719468
  let era : Int := Int.fdiv z' 146097
  let doe : Int := z' - era * 146097
  let yoe : Int := (doe - doe / 1460 + doe / 36524 - doe / 146096) / 365
  let y : Int := yoe + era * 400
  let doy : Int := doe - (365 * yoe + yoe / 4 - yoe / 100)
  let mp : Int := (5 * doy + 2) / 153
  let d : Int := doy - (153 * mp + 2) / 5 + 1
  let m : Int := if mp < 10 then mp + 3 else mp - 9
  (y + (if m ≤ 2 then 1 else 0), m.toNat, d.toNat)

/-- The year of the civil date a day count falls in. -/
def yearOfDay (z : Int) : Int := (civilFromDays z).1

def isLeapYear (y : Int) : Bool :=
  y.emod 4 = 0 && (y.emod 100 ≠ 0 || y.emod 400 = 0)

def daysInMonth (y : Int) (m : Nat) : Nat :=
  if m = 2 then (if isLeapYear y then 29 else 28)
  else if m = 4 || m = 6 || m = 9 || m = 11 then 30
  else 31

/-- The validity check performed by the `datetime` constructor (a bad
month or day raises `ValueError`).  Python additionally restricts years
to 1..9999; none of the claims exercises that bound. -/
def isValidDate (y : Int) (m d : Nat) : Bool :=
  1 ≤ m && m ≤ 12 && 1 ≤ d && d ≤ daysInMonth y m

/-! ## `datetime.fromisoformat` and `datetime.isoformat`

A datetime is modelled as a pair of its civil wall-clock reading in
seconds since the epoch and an optional fixed UTC offset in seconds
(`none` models a naive datetime).  The parser covers the zero-padded
`YYYY-MM-DD[<sep>HH[:MM[:SS[.ffffff]]]][±HH:MM]` forms, which are the
only ones produced and consumed by this repository; the fractional part
is validated but truncated (the model works at second granularity). -/

/-- An aware or naive datetime: civil seconds since the epoch plus an
optional UTC offset in seconds. -/
abbrev PyDateTime := Int × Option Int

/-- The instant (UTC seconds since the epoch) of an aware datetime. -/
def instantOf (t : Int) (off : Int) : Int := t - off

/-- Read exactly `k` ASCII digits. -/
def readDigits (k : Nat) (s : Str) : Option (Nat × Str) :=
  let ds := s.take k
  if ds.length = k && ds.all isAsciiDigit then some (natOfDigits ds, s.drop k)
  else none

/-- Expect a single character. -/
def readChar (c : Char) : Str → Option Str
  | [] => none
  | x :: xs => if x = c then some xs else none

/-- Parse the optional `±HH:MM` trailing offset. -/
def readOffset (s : Str) : Option (Option Int × Str) :=
  match s with
  | [] => some (none, [])
  | c :: rest =>
    if c = '+' || c = '-' then do
      let (oh, r1) ← readDigits 2 rest
      let r2 ← readChar ':' r1
      let (om, r3) ← readDigits 2 r2
      if oh ≤ 23 && om ≤ 59 then
        let mag : Int := 3600 * oh + 60 * om
        some (some (if c = '-' then -mag else mag), r3)
      else none
    else none

/-- Parse `[:MM[:SS[.ffffff]]]` after the hour. -/
def readMinSec (s : Str) : Option ((Nat × Nat) × Str) :=
  match s with
  | ':' :: rest => do
    let (mi, r1) ← readDigits 2 rest
    if mi ≤ 59 then
      match r1 with
      | ':' :: r2 => do
        let (se, r3) ← readDigits 2 r2
        if se ≤ 59 then
          match r3 with
          | '.' :: r4 =>
            let frac := r4.takeWhile isAsciiDigit
            if 1 ≤ frac.length && frac.length ≤ 6 then
              some ((mi, se), r4.dropWhile isAsciiDigit)
            else none
          | ',' :: r4 =>
            let frac := r4.takeWhile isAsciiDigit
            if 1 ≤ frac.length && frac.length ≤ 6 then
              some ((mi, se), r4.dropWhile isAsciiDigit)
            else none
          | _ => some ((mi, se), r3)
        else none
      | _ => some ((mi, 0), r1)
    else none
  | _ => some ((0, 0), s)

/-- Model of `datetime.fromisoformat` (after the repository's
`.replace('Z', '+00:00')` preprocessing, no `Z` suffix remains).
Returns the civil seconds and the optional offset, or `none` where the
Python call raises `ValueError`. -/
def pyFromIsoformat (s : Str) : Option PyDateTime := do
  let (y, r1) ← readDigits 4 s
  let r2 ← readChar '-' r1
  let (mo, r3) ← readDigits 2 r2
  let r4 ← readChar '-' r3
  let (d, r5) ← readDigits 2 r4
  if isValidDate y mo d then
    let base : Int := 86400 * daysFromCivil y mo d
    match r5 with
    | [] => some (base, none)
    | sep :: r6 =>
      if sep = 'T' || sep = ' ' then do
        let (hh, r7) ← readDigits 2 r6
        if hh ≤ 23 then do
          let ((mi, se), r8) ← readMinSec r7
          let (off, r9) ← readOffset r8
          if r9 = [] then
            some (base + 3600 * hh + 60 * mi + se, off)
          else none
        else none
      else none
  else none

/-- Python `s.replace('Z', '+00:00')` (every occurrence). -/
def replaceZ (s : Str) : Str :=
  s.flatMap fun c => if c = 'Z' then '+' :: '0' :: '0' :: ':' :: '0' :: '0' :: [] else [c]

/-- Left-pad a number with zeros to `k` digits. -/
def padNum (k n : Nat) : Str :=
  let ds := Nat.toDigits 10 n
  List.replicate (k - ds.length) '0' ++ ds

/-- Model of `datetime.isoformat()` for a datetime at second granularity
(Python appends `.ffffff` only when the microsecond field is non-zero;
the model truncates sub-second parts, see the module docstring). -/
def isoRender (dt : PyDateTime) : Str :=
  let days := Int.fdiv dt.1 86400
  let secs := (dt.1 - 86400 * days).toNat
  let c := civilFromDays days
  let datePart :=
    padNum 4 c.1.toNat ++ '-' :: padNum 2 c.2.1 ++ '-' :: padNum 2 c.2.2
  let timePart :=
    'T' :: padNum 2 (secs / 3600) ++ ':' :: padNum 2 (secs % 3600 / 60) ++
      ':' :: padNum 2 (secs % 60)
  let offPart :=
    match dt.2 with
    | none => []
    | some off =>
      (if off < 0 then '-' else '+') ::
        padNum 2 (off.natAbs / 3600) ++ ':' :: padNum 2 (off.natAbs % 3600 / 60)
  datePart ++ timePart ++ offPart

/-! ## Configuration tables (`config.py`)

The static keyword tables, in source order.  `MAX_PENDING_POSTS` and
`MAX_POST_AGE_DAYS` are the documented defaults (100 and 7). -/

def MAX_PENDING_POSTS : Nat := 100

def MAX_POST_AGE_DAYS : Int := 7

def BRAND_KEYWORDS : List (Str × List Str) :=
  [("nike".data, ["nike".data, "air max".data, "air force".data, "dunk".data,
      "blazer".data, "cortez".data, "vapormax".data, "pegasus".data]),
   ("adidas".data, ["adidas".data, "yeezy".data, "boost".data, "ultraboost".data,
      "nmd".data, "gazelle".data, "samba".data, "campus".data]),
   ("jordan".data, ["jordan".data, "air jordan".data, "aj1".data, "aj4".data,
      "aj11".data, "jumpman".data]),
   ("newbalance".data, ["new balance".data, "nb".data, "990".data, "991".data,
      "992".data, "993".data, "2002r".data, "550".data]),
   ("asics".data, ["asics".data, "gel".data, "gel-lyte".data, "gel-kayano".data,
      "gel-1090".data]),
   ("puma".data, ["puma".data, "suede".data, "clyde".data, "rs-x".data]),
   ("reebok".data, ["reebok".data, "classic".data, "club c".data, "question".data]),
   ("vans".data, ["vans".data, "old skool".data, "sk8-hi".data, "authentic".data,
      "era".data]),
   ("converse".data, ["converse".data, "chuck taylor".data, "all star".data,
      "one star".data]),
   ("salomon".data, ["salomon".data, "xt-6".data, "speedcross".data])]

def MODEL_KEYWORDS : List (Str × List Str) :=
  [("airmax".data, ["air max".data, "airmax".data, "am1".data, "am90".data,
      "am95".data, "am97".data]),
   ("airforce".data, ["air force".data, "af1".data, "air force 1".data]),
   ("dunk".data, ["dunk".data, "dunk low".data, "dunk high".data, "sb dunk".data]),
   ("yeezy".data, ["yeezy".data, "boost 350".data, "boost 700".data,
      "foam runner".data]),
   ("jordan1".data, ["jordan 1".data, "aj1".data, "air jordan 1".data]),
   ("jordan4".data, ["jordan 4".data, "aj4".data, "air jordan 4".data]),
   ("ultraboost".data, ["ultraboost".data, "ultra boost".data]),
   ("990".data, ["990".data, "990v".data, "990v5".data, "990v6".data])]

def RELEASE_TYPES : List (Str × List Str) :=
  [("retro".data, ["retro".data, "og".data, "original".data, "vintage".data]),
   ("collab".data, ["collab".data, "collaboration".data, "x ".data, " x ".data,
      "partner".data]),
   ("limited".data, ["limited".data, "exclusive".data, "rare".data,
      "special edition".data]),
   ("womens".data, ["women".data, "wmns".data, "female".data]),
   ("kids".data, ["kids".data, "gs".data, "gradeschool".data, "youth".data]),
   ("lifestyle".data, ["lifestyle".data, "casual".data, "street".data]),
   ("performance".data, ["performance".data, "running".data, "basketball".data,
      "training".data])]

/-- The `color_map` table of `extract_colors`, in source order
(term, canonical colour). -/
def colorMap : List (Str × Str) :=
  [("black".data, "black".data), ("white".data, "white".data),
   ("red".data, "red".data), ("blue".data, "blue".data),
   ("green".data, "green".data), ("yellow".data, "yellow".data),
   ("purple".data, "purple".data), ("pink".data, "pink".data),
   ("orange".data, "orange".data), ("grey".data, "grey".data),
   ("gray".data, "grey".data), ("brown".data, "brown".data),
   ("gold".data, "gold".data), ("silver".data, "silver".data),
   ("navy".data, "navy".data), ("teal".data, "teal".data),
   ("cream".data, "cream".data), ("beige".data, "beige".data),
   ("черный".data, "black".data), ("черн".data, "black".data),
   ("белый".data, "white".data), ("бел".data, "white".data),
   ("красный".data, "red".data), ("красн".data, "red".data),
   ("синий".data, "blue".data), ("син".data, "blue".data),
   ("зеленый".data, "green".data), ("зелен".data, "green".data),
   ("желтый".data, "yellow".data), ("желт".data, "yellow".data),
   ("фиолетовый".data, "purple".data), ("розовый".data, "pink".data),
   ("роз".data, "pink".data), ("оранжевый".data, "orange".data),
   ("серый".data, "grey".data), ("сер".data, "grey".data),
   ("коричневый".data, "brown".data), ("золотой".data, "gold".data),
   ("серебряный".data, "silver".data)]

def HASHTAGS_sneakers : List (Str × Str) :=
  [("nike".data, "#nike #sneakers #кроссовки #найк #никебутик".data),
   ("adidas".data, "#adidas #sneakers #кроссовки #адидас #threestripes".data),
   ("jordan".data, "#jordan #airjordan #кроссовки #джордан #jumpman".data),
   ("newbalance".data, "#newbalance #nb #кроссовки #ньюбаланс #madeinusa".data),
   ("puma".data, "#puma #sneakers #кроссовки #пума #pumafamily".data),
   ("yeezy".data, "#yeezy #adidas #кроссовки #изи #kanye".data),
   ("asics".data, "#asics #sneakers #кроссовки #асикс #geltechnology".data),
   ("reebok".data, "#reebok #sneakers #кроссовки #рибок #classic".data),
   ("vans".data, "#vans #sneakers #кроссовки #ванс #offthewall".data),
   ("converse".data, "#converse #sneakers #кроссовки #конверс #allstar".data)]

def HASHTAGS_sneakers_default : Str :=
  "#sneakers #кроссовки #streetwear #обувь #sneakerhead".data

def HASHTAGS_fashion : List (Str × Str) :=
  [("supreme".data, "#supreme #streetwear #fashion #суприм #hypebeast".data),
   ("offwhite".data, "#offwhite #fashion #streetwear #virgilabloh".data),
   ("stussy".data, "#stussy #streetwear #fashion #stussytribe".data),
   ("palace".data, "#palace #streetwear #fashion #palaceskateboards".data)]

def HASHTAGS_fashion_default : Str :=
  "#fashion #мода #streetwear #style #стиль #outfit".data

/-! ## Tag extraction (`bot/utils/tags.py`) -/

/-- One pass of the `for <tag>, keywords in <table>.items()` loops of
`extract_tags`: a tag is appended (once) when any of its keywords
satisfies the match predicate; the inner `break` stops at the first
matching keyword, which the fold reflects via `List.any`. -/
def tagScanAux (p : Str → Bool) : List (Str × List Str) → List Str → List Str
  | [], acc => acc
  | e :: es, acc =>
    tagScanAux p es (if e.2.any p ∧ e.1 ∉ acc then acc ++ [e.1] else acc)

def tagScan (table : List (Str × List Str)) (p : Str → Bool) : List Str :=
  tagScanAux p table []

/-- Insert into an insertion-ordered set. -/
def addSet (l : List Str) (x : Str) : List Str := if x ∈ l then l else l ++ [x]

/-- The `for color_term, color_eng in color_map.items()` loop of
`extract_colors`.  Python accumulates into a `set`; the model uses an
insertion-ordered duplicate-free list (Python's set iteration order is
unspecified, and no claim depends on the order of the colour list). -/
def colorScanAux (text : Str) : List (Str × Str) → List Str → List Str
  | [], acc => acc
  | e :: es, acc =>
    colorScanAux text es (if wordMatch e.1 (lowerStr text) then addSet acc e.2 else acc)

/-- `extract_colors` of `bot/utils/tags.py`: word-boundary matches of the
colour table (the `re.IGNORECASE` search is modelled by lowering the
text; every table term is already lower case), plus the two composite
special cases, which use plain case-sensitive substring tests. -/
def extract_colors (text : Str) : List Str :=
  let base := colorScanAux text colorMap []
  let withBlack :=
    if containsSub ("triple black".data) text then addSet base ("black".data) else base
  if containsSub ("triple white".data) text || containsSub ("core white".data) text then
    addSet withBlack ("white".data)
  else withBlack

structure Tags where
  brands : List Str
  models : List Str
  types : List Str
  colors : List Str

/-- `f"{title} {context}".lower()`. -/
def combinedLower (title context : Str) : Str := lowerStr (title ++ ' ' :: context)

/-- `re.sub(r'[^\w\s-]', ' ', text)`: every character that is not a
word character, whitespace or a hyphen becomes a space. -/
def normalizeText (text : Str) : Str :=
  text.map fun c => if isWordChar c || isPySpace c || c = '-' then c else ' '

/-- `extract_tags` of `bot/utils/tags.py`.  Brands and models use a
word-boundary regex over the punctuation-stripped text; release types
use plain substring containment over the raw lowered text; colours are
delegated to `extract_colors` on the raw lowered text. -/
def extract_tags (title context : Str) : Tags :=
  let text := combinedLower title context
  let textNorm := normalizeText text
  { brands := tagScan BRAND_KEYWORDS fun k => wordMatch k textNorm
    models := tagScan MODEL_KEYWORDS fun k => wordMatch k textNorm
    types := tagScan RELEASE_TYPES fun k => containsSub k text
    colors := extract_colors text }

/-- The tag semantics stated by the claim (and §4.1 of the spec): every
one of the four categories is populated exactly on a word-boundary regex
match against the lowercased, punctuation-stripped text.  Written from
the claim's words, for comparison with `extract_tags`. -/
def claimExtractTags (title context : Str) : Tags :=
  let text := combinedLower title context
  let textNorm := normalizeText text
  { brands := tagScan BRAND_KEYWORDS fun k => wordMatch k textNorm
    models := tagScan MODEL_KEYWORDS fun k => wordMatch k textNorm
    types := tagScan RELEASE_TYPES fun k => wordMatch k textNorm
    colors := colorScanAux textNorm colorMap [] }

/-! ## A JSON value model

State files, pending records and `Post.to_dict` dictionaries are JSON
shaped; `J` models Python objects as deserialised by `json.loads`. -/

inductive J where
  | null
  | bool (b : Bool)
  | num (n : Int)
  | str (s : Str)
  | arr (elems : List J)
  | obj (entries : List (Str × J))

def J.isNull : J → Bool
  | .null => true
  | _ => false

def J.isObj : J → Bool
  | .obj _ => true
  | _ => false

/-- Association-list lookup (Python `dict` access by key; insertion
order is the list order, as for `dict`). -/
def alookup {β : Type} (k : Str) : List (Str × β) → Option β
  | [] => none
  | e :: es => if e.1 = k then some e.2 else alookup k es

/-- Replace the value at a present key, keeping its position
(Python `d[k] = v` for an existing key). -/
def asetKey {β : Type} (k : Str) (v : β) : List (Str × β) → List (Str × β)
  | [] => []
  | e :: es => if e.1 = k then (k, v) :: es else e :: asetKey k v es

/-! ## The `Post` model (`bot/models/post.py`)

The dataclass fields, at their declared types.  The three
`datetime.utcnow().isoformat()` default factories and the
`update_timestamp` refresh are modelled by an explicit `now` string
parameter (within one call they are the same clock reading up to
microseconds, which the claims do not observe). -/

structure Post where
  id : Str
  title : Str
  link : Str
  source : Str
  category : Str := "sneakers".data
  timestamp : Str := []
  context : Str := []
  description : Str := []
  images : List Str := []
  original_images : List Str := []
  generated_images : List Str := []
  tags : List (Str × List Str) := []
  status : Str := "pending".data
  needs_parsing : Bool := true
  scheduled_time : Option Str := none
  created_at : Str
  updated_at : Str
  published_at : Option Str := none
  views : Int := 0
  likes : Int := 0
deriving DecidableEq

/-- `Post.__post_init__` restricted to fields at their declared types:
the `isinstance` re-normalisations are identities there, and an empty
`timestamp` is replaced by the current time. -/
def postInitNormalize (now : Str) (p : Post) : Post :=
  { p with timestamp := if p.timestamp = [] then now else p.timestamp }

/-- `Post.mark_as_published` (including the `update_timestamp` call). -/
def mark_as_published (now : Str) (p : Post) : Post :=
  { p with status := "published".data, published_at := some now, updated_at := now }

def optStrJ : Option Str → J
  | none => .null
  | some s => .str s

/-- The full dictionary built inside `Post.to_dict`, before the
`None`-removal comprehension. -/
def postEntriesFull (p : Post) : List (Str × J) :=
  [("id".data, .str p.id), ("title".data, .str p.title),
   ("link".data, .str p.link), ("source".data, .str p.source),
   ("category".data, .str p.category), ("timestamp".data, .str p.timestamp),
   ("context".data, .str p.context), ("description".data, .str p.description),
   ("images".data, .arr (p.images.map .str)),
   ("original_images".data, .arr (p.original_images.map .str)),
   ("generated_images".data, .arr (p.generated_images.map .str)),
   ("tags".data, .obj (p.tags.map fun e => (e.1, J.arr (e.2.map J.str)))),
   ("status".data, .str p.status), ("needs_parsing".data, .bool p.needs_parsing),
   ("scheduled_time".data, optStrJ p.scheduled_time),
   ("created_at".data, .str p.created_at), ("updated_at".data, .str p.updated_at),
   ("published_at".data, optStrJ p.published_at),
   ("views".data, .num p.views), ("likes".data, .num p.likes)]

/-- `Post.to_dict`: the full dictionary with `None`-valued entries
removed. -/
def to_dict (p : Post) : List (Str × J) :=
  (postEntriesFull p).filter fun e => !e.2.isNull

def J.asStr : J → Option Str
  | .str s => some s
  | _ => none

def decodeStrs : List J → Option (List Str)
  | [] => some []
  | j :: js =>
    match j.asStr, decodeStrs js with
    | some s, some ss => some (s :: ss)
    | _, _ => none

def decodeStrList : J → Option (List Str)
  | .arr es => decodeStrs es
  | _ => none

def decodeTagEntries : List (Str × J) → Option (List (Str × List Str))
  | [] => some []
  | e :: es =>
    match decodeStrList e.2, decodeTagEntries es with
    | some l, some ls => some ((e.1, l) :: ls)
    | _, _ => none

def decodeTagMap : J → Option (List (Str × List Str))
  | .obj kvs => decodeTagEntries kvs
  | _ => none

/-- Decode a field that may be absent (use the dataclass default) or an
explicit string. -/
def fieldStrD (d : List (Str × J)) (k dflt : Str) : Option Str :=
  match alookup k d with
  | none => some dflt
  | some v => v.asStr

def fieldOptStr (d : List (Str × J)) (k : Str) : Option (Option Str) :=
  match alookup k d with
  | none => some none
  | some .null => some none
  | some (.str s) => some (some s)
  | some _ => none

def fieldStrListD (d : List (Str × J)) (k : Str) : Option (List Str) :=
  match alookup k d with
  | none => some []
  | some v => decodeStrList v


def fieldBoolD (d : List (Str × J)) (k : Str) (dflt : Bool) : Option Bool :=
  match alookup k d with
  | none => some dflt
  | some (.bool b) => some b
  | some _ => none

def fieldIntD (d : List (Str × J)) (k : Str) (dflt : Int) : Option Int :=
  match alookup k d with
  | none => some dflt
  | some (.num n) => some n
  | some _ => none

def fieldTagsD (d : List (Str × J)) (k : Str) : Option (List (Str × List Str)) :=
  match alookup k d with
  | none => some []
  | some v => decodeTagMap v

/-- The legacy-`uid` preprocessing of `Post.from_dict`: when `id` is
absent and `uid` present, `data['id'] = data['uid']` inserts a fresh
`id` key at the end of the dict. -/
def uidFixup (d : List (Str × J)) : List (Str × J) :=
  match alookup ("id".data) d, alookup ("uid".data) d with
  | none, some v => d ++ [("id".data, v)]
  | _, _ => d

/-- The string-typed fields decoded by `Post.from_dict` (grouped by
field type purely to stage the decoding). -/
structure FdStrPart where
  i : Str
  t : Str
  l : Str
  src : Str
  cat : Str
  ts : Str
  ctx : Str
  desc : Str
  st : Str
  cre : Str
  upd : Str

def fdStrPart (now : Str) (d1 : List (Str × J)) : Option FdStrPart := do
  let i ← (alookup ("id".data) d1).bind J.asStr
  let t ← (alookup ("title".data) d1).bind J.asStr
  let l ← (alookup ("link".data) d1).bind J.asStr
  let src ← fieldStrD d1 ("source".data) []
  let cat ← fieldStrD d1 ("category".data) ("sneakers".data)
  let ts ← fieldStrD d1 ("timestamp".data) []
  let ctx ← fieldStrD d1 ("context".data) []
  let desc ← fieldStrD d1 ("description".data) []
  let st ← fieldStrD d1 ("status".data) ("pending".data)
  let cre ← fieldStrD d1 ("created_at".data) now
  let upd ← fieldStrD d1 ("updated_at".data) now
  some (FdStrPart.mk i t l src cat ts ctx desc st cre upd)

/-- The list- and map-typed fields decoded by `Post.from_dict`. -/
structure FdListPart where
  imgs : List Str
  oimgs : List Str
  gimgs : List Str
  tgs : List (Str × List Str)

def fdListPart (d1 : List (Str × J)) : Option FdListPart := do
  let imgs ← fieldStrListD d1 ("images".data)
  let oimgs ← fieldStrListD d1 ("original_images".data)
  let gimgs ← fieldStrListD d1 ("generated_images".data)
  let tgs ← fieldTagsD d1 ("tags".data)
  some (FdListPart.mk imgs oimgs gimgs tgs)

/-- The remaining fields decoded by `Post.from_dict`. -/
structure FdMiscPart where
  np : Bool
  sched : Option Str
  pub : Option Str
  vw : Int
  lk : Int

def fdMiscPart (d1 : List (Str × J)) : Option FdMiscPart := do
  let np ← fieldBoolD d1 ("needs_parsing".data) true
  let sched ← fieldOptStr d1 ("scheduled_time".data)
  let pub ← fieldOptStr d1 ("published_at".data)
  let vw ← fieldIntD d1 ("views".data) 0
  let lk ← fieldIntD d1 ("likes".data) 0
  some (FdMiscPart.mk np sched pub vw lk)

/-- `Post.from_dict`, on dictionaries whose present known fields carry
values of the declared types (the only dictionaries `to_dict` produces;
for other values CPython would build an ill-typed dataclass instance,
which the typed model cannot represent and maps to `none`).  Missing
`id`/`title`/`link`/`source` make the `cls(**filtered_data)` call raise
(`source` is modelled with an empty-string default although CPython
raises on a missing `source` too; every `to_dict` output carries the
key, so the branch is not exercised).  Unknown keys are dropped by the
known-field filter, i.e. simply never looked up; `__post_init__` runs
on the constructed instance. -/
def from_dict (now : Str) (d : List (Str × J)) : Option Post := do
  let d1 := uidFixup d
  let a ← fdStrPart now d1
  let b ← fdListPart d1
  let c ← fdMiscPart d1
  some (postInitNormalize now
    { id := a.i, title := a.t, link := a.l, source := a.src, category := a.cat,
      timestamp := a.ts, context := a.ctx, description := a.desc,
      images := b.imgs, original_images := b.oimgs,
      generated_images := b.gimgs, tags := b.tgs, status := a.st,
      needs_parsing := c.np, scheduled_time := c.sched, created_at := a.cre,
      updated_at := a.upd, published_at := c.pub, views := c.vw,
      likes := c.lk })

/-! ## Hashtags (`get_hashtags` of `bot/utils/tags.py`) -/

/-- The `for brand, hashtags in HASHTAGS["sneakers"].items()` loop (the
`default` entry is skipped by the loop and is the fall-through result).
Each iteration runs the source's `if`/`elif`/`elif` chain: the `jordan`
and `yeezy` special-case guards first, then — also when a special guard
failed for that same brand — the generic `elif brand in title_lower`. -/
def sneakersHashtagScan (tl : Str) : List (Str × Str) → Str
  | [] => HASHTAGS_sneakers_default
  | e :: es =>
    if e.1 = "jordan".data ∧
        (containsSub ("air jordan".data) tl ∨ containsSub ("jordan".data) tl) then e.2
    else if e.1 = "yeezy".data ∧ containsSub ("yeezy".data) tl then e.2
    else if containsSub e.1 tl then e.2
    else sneakersHashtagScan tl es

/-- The fashion loop; the `offwhite` special guard is followed by the
generic `elif brand in title_lower` of the same `if`/`elif` chain, so a
title containing `offwhite` verbatim still selects that entry even when
the hyphen/space variants are absent. -/
def fashionHashtagScan (tl : Str) : List (Str × Str) → Str
  | [] => HASHTAGS_fashion_default
  | e :: es =>
    if e.1 = "offwhite".data ∧
        (containsSub ("off-white".data) tl ∨ containsSub ("off white".data) tl) then e.2
    else if containsSub e.1 tl then e.2
    else fashionHashtagScan tl es

/-- `get_hashtags` (the `lru_cache` is semantically transparent).  For a
category other than `sneakers`/`fashion`, `HASHTAGS.get(category, {})`
is empty and the literal fallback string is returned. -/
def get_hashtags (title category : Str) : Str :=
  let tl := lowerStr title
  if category = "sneakers".data then sneakersHashtagScan tl HASHTAGS_sneakers
  else if category = "fashion".data then fashionHashtagScan tl HASHTAGS_fashion
  else "#streetwear #style".data

/-! ## Publisher (`bot/services/publisher.py`) -/

/-- `Publisher.max_caption_length`. -/
def max_caption_length : Nat := 1024

/-- The `source_emojis` table of `_build_caption`. -/
def sourceEmojis : List (Str × Str) :=
  [("SneakerNews".data, "📰".data), ("Hypebeast".data, "🔥".data),
   ("Highsnobiety".data, "💎".data), ("Hypebeast Footwear".data, "👟".data),
   ("Hypebeast Fashion".data, "👔".data),
   ("Highsnobiety Sneakers".data, "✨".data),
   ("Highsnobiety Fashion".data, "🎨".data)]

/-- `Publisher._build_caption`. -/
def build_caption (p : Post) (for_channel : Bool) : Str :=
  let caption := pyOrStr p.description (pyOrStr p.context p.title)
  if for_channel then
    let hashtags := get_hashtags p.title p.category
    let source_emoji := (alookup p.source sourceEmojis).getD ("📍".data)
    let source_text := "\n\n".data ++ source_emoji ++ " ".data ++ p.source
    let category_emoji :=
      if p.category = "sneakers".data then "👟".data else "👔".data
    let link_text :=
      "\n".data ++ category_emoji ++ (" <a href=\"".data) ++ p.link ++
        ("\">Читать полностью</a>".data)
    let total_length :=
      caption.length + source_text.length + link_text.length + hashtags.length + 10
    if total_length < max_caption_length then
      caption ++ source_text ++ link_text ++ "\n\n".data ++ hashtags
    else if caption.length + hashtags.length + 10 < max_caption_length then
      caption ++ "\n\n".data ++ hashtags
    else
      let mc : Int := (max_caption_length : Int) - hashtags.length - 10
      pySliceTo caption mc ++ "...".data ++ "\n\n".data ++ hashtags
  else caption

/-- The slice of the live state dictionary `_state` that the
`publish_post` success path reads and mutates.  (The remaining state
keys are not touched by the modelled code paths.) -/
structure LState where
  sent_links : List Str
  pending : List (Str × J)
  favorites : List Str
  auto_publish : Bool
  last_auto_publish : Option Str

/-- The state bookkeeping of `Publisher.publish_post` after a successful
send (publisher.py lines 60-80), as it lands in the live `_state`.

`state = await get_state()` hands the function a *shallow* copy of
`_state`, so the in-place mutations (`.append` on `sent_links`, `.pop`
on `pending`, `.remove` on `favorites`) reach the live dictionaries,
while the rebinding `state["sent_links"] = state["sent_links"][-500:]`
replaces the list only inside the local copy: the live (and therefore
persisted) `sent_links` keeps the appended, untrimmed list.  `remove`
deletes only the first occurrence of `post.id` in `favorites`. -/
def publish_post_state_update (now_iso : Str) (st : LState) (p : Post) : LState :=
  let sent1 :=
    if p.link ∈ st.sent_links then st.sent_links else st.sent_links ++ [p.link]
  { st with
    sent_links := sent1
    pending := st.pending.filter fun e => e.1 ≠ p.id
    favorites :=
      if p.id ∈ st.favorites then st.favorites.erase p.id else st.favorites
    last_auto_publish := if st.auto_publish then some now_iso else st.last_auto_publish }

/-- The full effect of a successful `publish_post` on the live state and
on the post object (`post.mark_as_published()` runs before the state
bookkeeping but is independent of it). -/
def publish_post_success (now_iso : Str) (st : LState) (p : Post) : LState × Post :=
  (publish_post_state_update now_iso st p, mark_as_published now_iso p)

/-- The sent-link trim of `Scheduler.cleanup_job` (scheduler.py lines
249-254).  Unlike the one in `publish_post`, this trim is pushed into
the live state through `update_state("sent_links", ...)`. -/
def cleanup_trim_sent_links (st : LState) : LState :=
  if st.sent_links.length > 1000 then
    { st with sent_links := st.sent_links.drop (st.sent_links.length - 500) }
  else st

/-! ## State cleanup and loading (`bot/utils/state.py`) -/

/-- Insertion step of a stable descending sort by a string key: `x` is
placed before the first element whose key is `≤` its own, so elements
with equal keys keep their original relative order — the contract of
CPython's `sorted(..., reverse=True)`. -/
def insertDescBy {α : Type} (key : α → Str) (x : α) : List α → List α
  | [] => [x]
  | y :: ys => if key x < key y then y :: insertDescBy key x ys else x :: y :: ys

/-- Stable descending sort by a string key (string comparison is
lexicographic on code points, as in Python). -/
def sortDescBy {α : Type} (key : α → Str) : List α → List α
  | [] => []
  | z :: zs => insertDescBy key z (sortDescBy key zs)

/-- The sort key `lambda x: x[1].get("timestamp", "")` of
`clean_old_posts`.  `none` marks a record for which CPython would raise
inside `sorted` (a non-dict record, where `.get` raises, or — compared
against the string keys of the other records — a non-string timestamp
value); the caller maps that to a raised exception.  (A pending map
whose timestamp values are *all* of one non-string type would actually
sort in CPython; no state produced by this repository contains one, and
the claims do not exercise it.) -/
def pendSortKey (rec : J) : Option Str :=
  match rec with
  | .obj kvs =>
    match alookup ("timestamp".data) kvs with
    | none => some []
    | some (.str s) => some s
    | some _ => none
  | _ => none

/-- The age test of `clean_old_posts`: a record is removed when
`(now - fromisoformat(ts.replace('Z','+00:00'))).days > MAX_POST_AGE_DAYS`.
Every failure inside the `try` keeps the record: a missing or
unparseable timestamp (`ValueError`), a non-string timestamp or
non-dict record (`AttributeError`/`TypeError`), and — crucially — a
*naive* parsed timestamp, because subtracting a naive datetime from the
aware `now` raises `TypeError`.  `timedelta.days` floors, which
`Int.fdiv` reproduces for negative ages as well. -/
def pendRemovable (now : Int) (rec : J) : Bool :=
  match rec with
  | .obj kvs =>
    match alookup ("timestamp".data) kvs with
    | some (.str s) =>
      match pyFromIsoformat (replaceZ s) with
      | some (civ, some off) =>
        decide (MAX_POST_AGE_DAYS < Int.fdiv (now - instantOf civ off) 86400)
      | some (_, none) => false
      | none => false
    | _ => false
  | _ => false

/-- `clean_old_posts` on the `pending` map (the only state key the
function touches), returning the new map and the removed-entry count.
`none` models the `TypeError` CPython raises inside `sorted` (see
`pendSortKey`), which propagates out of the function. -/
def clean_old_posts (now : Int) (pending : List (Str × J)) :
    Option (List (Str × J) × Nat) :=
  let remaining := pending.filter fun e => !pendRemovable now e.2
  let removed1 := pending.length - remaining.length
  if MAX_PENDING_POSTS < remaining.length then
    if remaining.all fun e => (pendSortKey e.2).isSome then
      let sorted := sortDescBy (fun e => (pendSortKey e.2).getD []) remaining
      some (sorted.take MAX_PENDING_POSTS,
            removed1 + (remaining.length - MAX_PENDING_POSTS))
    else none
  else some (remaining, removed1)

/-- `DEFAULT_TIMEZONE` and `TELEGRAM_CHANNEL` at their documented
defaults (both are environment-overridable in `config.py`). -/
def DEFAULT_TIMEZONE : Str := "Europe/Moscow".data

def TELEGRAM_CHANNEL : Str := "@channelusername".data

/-- `get_default_state`, in source (= dict insertion) order. -/
def get_default_state : List (Str × J) :=
  [("sent_links".data, .arr []), ("pending".data, .obj []),
   ("moderation_queue".data, .arr []), ("preview_mode".data, .obj []),
   ("thoughts_mode".data, .bool false), ("scheduled_posts".data, .obj []),
   ("generated_images".data, .obj []), ("waiting_for_image".data, .null),
   ("current_thought".data, .null), ("waiting_for_schedule".data, .null),
   ("editing_schedule".data, .null), ("favorites".data, .arr []),
   ("auto_publish".data, .bool false), ("publish_interval".data, .num 3600),
   ("timezone".data, .str DEFAULT_TIMEZONE), ("channel".data, .str TELEGRAM_CHANNEL),
   ("waiting_for_channel".data, .bool false), ("waiting_for_prompt".data, .null),
   ("auto_interval_custom".data, .bool false), ("last_auto_publish".data, .null)]

def defaultStateJ : J := .obj get_default_state

/-- What `load_state` sees of the world: the file is absent, reading it
raised, `json.loads` raised, or deserialisation produced a JSON value. -/
inductive LoadInput where
  | missing
  | ioError
  | badJson
  | parsed (j : J)

/-- The pending-entry validation of `load_state`:
`isinstance(record, dict) and all(key in record for key in
['id','title','link'])` (key presence only; values are not inspected). -/
def hasRequiredKeys (rec : J) : Bool :=
  match rec with
  | .obj kvs =>
    (alookup ("id".data) kvs).isSome && (alookup ("title".data) kvs).isSome &&
      (alookup ("link".data) kvs).isSome
  | _ => false

/-- The default-key merge of `load_state`: missing keys are appended in
default order (Python inserts new dict keys at the end). -/
def mergeDefaults (kvs : List (Str × J)) : List (Str × J) :=
  kvs ++ (get_default_state.filter fun e => (alookup e.1 kvs).isNone)

/-- The body of `load_state` after deserialisation succeeded with a JSON
object: merge defaults, validate pending entries, run the cleanup.  Any
exception inside (a non-dict `pending` value, on which `.items()`
raises, or a raise inside `clean_old_posts`) is caught by the outer
`except`, which returns the default state. -/
def loadProcess (now : Int) (kvs : List (Str × J)) : J :=
  let merged := mergeDefaults kvs
  match alookup ("pending".data) merged with
  | some (.obj pend) =>
    let valid := pend.filter fun e => hasRequiredKeys e.2
    match clean_old_posts now valid with
    | some (pend2, _) => .obj (asetKey ("pending".data) (.obj pend2) merged)
    | none => defaultStateJ
  | some _ => defaultStateJ
  | none => defaultStateJ

/-- `load_state`.  A missing file starts from the default state and runs
the same pipeline; a read or parse error falls back to the default
state; a deserialised non-object makes the merge loop raise
(`key not in loaded_state` or the subsequent assignment fails on lists,
strings and scalars), which the `except` turns into the default state
as well. -/
def load_state (now : Int) (inp : LoadInput) : J :=
  match inp with
  | .ioError => defaultStateJ
  | .badJson => defaultStateJ
  | .missing => loadProcess now get_default_state
  | .parsed (.obj kvs) => loadProcess now kvs
  | .parsed _ => defaultStateJ

/-! ## Schedule-time parsing (`parse_schedule_time` of
`bot/utils/time_utils.py`)

The user timezone (a `pytz` zone) is modelled as a fixed UTC offset
`off` in seconds, and the current instant as `now` (UTC seconds).  All
Python datetimes involved are at second-or-coarser granularity. -/

/-- Match `^(\d{1,2}):(\d{2})$` and return the two groups. -/
def parseHM (s : Str) : Option (Nat × Nat) :=
  let ds := s.takeWhile isAsciiDigit
  let r := s.dropWhile isAsciiDigit
  if ds.length = 1 ∨ ds.length = 2 then
    match r with
    | ':' :: r2 =>
      if r2.length = 2 ∧ r2.all isAsciiDigit then
        some (natOfDigits ds, natOfDigits r2)
      else none
    | _ => none
  else none

/-- Match `^(\d{1,2})\.(\d{1,2})\s+(\d{1,2}):(\d{2})$`: day, month,
hour, minute. -/
def parseDM (s : Str) : Option (Nat × Nat × Nat × Nat) :=
  let d1 := s.takeWhile isAsciiDigit
  let r1 := s.dropWhile isAsciiDigit
  if d1.length = 1 ∨ d1.length = 2 then
    match r1 with
    | '.' :: r2 =>
      let d2 := r2.takeWhile isAsciiDigit
      let r3 := r2.dropWhile isAsciiDigit
      if d2.length = 1 ∨ d2.length = 2 then
        let ws := r3.takeWhile isPySpace
        let r4 := r3.dropWhile isPySpace
        if ws.length ≥ 1 then
          let d3 := r4.takeWhile isAsciiDigit
          let r5 := r4.dropWhile isAsciiDigit
          if d3.length = 1 ∨ d3.length = 2 then
            match r5 with
            | ':' :: r6 =>
              if r6.length = 2 ∧ r6.all isAsciiDigit then
                some (natOfDigits d1, natOfDigits d2, natOfDigits d3, natOfDigits r6)
              else none
            | _ => none
          else none
        else none
      else none
    | _ => none
  else none

/-- Match `^\+(\d+)([hmd])$` (applied to the lowercased text). -/
def parseRel (s : Str) : Option (Nat × Char) :=
  match s with
  | '+' :: r =>
    let ds := r.takeWhile isAsciiDigit
    match r.dropWhile isAsciiDigit with
    | [u] =>
      if 1 ≤ ds.length ∧ (u = 'h' ∨ u = 'm' ∨ u = 'd') then
        some (natOfDigits ds, u)
      else none
    | _ => none
  | _ => none

/-- Branch 1 of `parse_schedule_time`: `now.replace(hour=h, minute=m,
second=0, microsecond=0)` on the local clock, bumped by one day when not
strictly in the future, then `astimezone(utc)`. -/
def schedHM (off now : Int) (hh mm : Nat) : Int :=
  let ln := now + off
  let day := Int.fdiv ln 86400
  let sched := day * 86400 + 3600 * hh + 60 * mm
  (if sched ≤ ln then sched + 86400 else sched) - off

/-- Branch 2 of `parse_schedule_time`: `user_tz.localize(datetime(year,
month, day, h, m))`, rolling to the next year when strictly in the past;
an invalid date makes the `datetime` constructor (or the
`replace(year=year+1)`) raise, which the enclosing `except` turns into
`None`. -/
def schedDM (off now : Int) (d mo hh mm : Nat) : Option Int :=
  let ln := now + off
  let y := yearOfDay (Int.fdiv ln 86400)
  if isValidDate y mo d then
    let inst := 86400 * daysFromCivil y mo d + 3600 * hh + 60 * mm - off
    if inst < now then
      if isValidDate (y + 1) mo d then
        some (86400 * daysFromCivil (y + 1) mo d + 3600 * hh + 60 * mm - off)
      else none
    else some inst
  else none

/-- Branch 3 of `parse_schedule_time`: relative offsets from
`datetime.now(timezone.utc)`, unit-bounded; an out-of-range amount falls
off the end of the function (`None`). -/
def schedRel (now : Int) (n : Nat) (u : Char) : Option Int :=
  if u = 'h' ∧ 1 ≤ n ∧ n ≤ 24 then some (now + 3600 * n)
  else if u = 'm' ∧ 1 ≤ n ∧ n ≤ 1440 then some (now + 60 * n)
  else if u = 'd' ∧ 1 ≤ n ∧ n ≤ 30 then some (now + 86400 * n)
  else none

/-- `parse_schedule_time text user_tz` with the current instant made
explicit.  The branch structure mirrors the source: a regex-1 match with
in-range fields returns immediately; out-of-range fields fall through to
the next regex; a raise inside branch 2 (invalid calendar date) aborts
the whole function with `None` rather than falling through. -/
def parse_schedule_time (text : Str) (off now : Int) : Option Int :=
  let t := pyStrip text
  let relPart : Option Int :=
    match parseRel (lowerStr t) with
    | some (n, u) => schedRel now n u
    | none => none
  let dmPart : Option Int :=
    match parseDM t with
    | some (d, mo, hh, mm) =>
      if 1 ≤ d ∧ d ≤ 31 ∧ 1 ≤ mo ∧ mo ≤ 12 ∧ hh ≤ 23 ∧ mm ≤ 59 then
        schedDM off now d mo hh mm
      else relPart
    | none => relPart
  match parseHM t with
  | some (hh, mm) =>
    if hh ≤ 23 ∧ mm ≤ 59 then some (schedHM off now hh mm) else dmPart
  | none => dmPart

/-! ## Source parsing and in-pass dedup (`bot/services/parser.py`)

The HTTP layer and BeautifulSoup/feed structure are external
collaborators (spec §1); an item is modelled as the record of accessor
results the parse functions read from it.  `clean_html` wraps the
external `soup.get_text(separator=" ", strip=True)`; the model replaces
markup tags by a separator space and then applies the source's
whitespace-collapse and strip.  `make_post_id` wraps `hashlib.md5`; the
model keeps the hash input `f"{source}|{link}"` itself (no claim
inspects id values). -/

/-- Tag-stripping part of the external `get_text` call: drop `<...>`
spans, leaving a separator space. -/
def stripTagsAux : Str → Bool → Str
  | [], _ => []
  | c :: cs, inTag =>
    if inTag then
      (if c = '>' then ' ' :: stripTagsAux cs false else stripTagsAux cs true)
    else if c = '<' then stripTagsAux cs true
    else c :: stripTagsAux cs false

/-- Whitespace-run collapse, the model of `re.sub(r'\s+', ' ', ...)`. -/
def collapseWsAux : Bool → Str → Str
  | _, [] => []
  | prevSpace, c :: cs =>
    if isPySpace c then
      (if prevSpace then collapseWsAux true cs else ' ' :: collapseWsAux true cs)
    else c :: collapseWsAux false cs

/-- `clean_html` of `bot/utils/helpers.py`. -/
def clean_html (s : Str) : Str :=
  if s = [] then [] else pyStrip (collapseWsAux false (stripTagsAux s false))

/-- `make_post_id` of `bot/utils/helpers.py` builds
`md5(f"{source}|{link}")[:12]`; the model keeps the pre-image (the id is
opaque to every claim). -/
def make_post_id (source link : Str) : Str := source ++ '|' :: link

def hasPrefixB (pat s : Str) : Bool := decide (pat <+: s)

def hasSuffixB (pat s : Str) : Bool := decide (pat <:+ s)

/-- A minimal model of `urllib.parse.urlparse` for `scheme://netloc/path`
URLs: the (scheme, netloc, path-and-rest) split. -/
def urlSplit (u : Str) : Option (Str × Str × Str) :=
  if hasPrefixB ("http://".data) u then
    let rest := u.drop 7
    some ("http".data, rest.takeWhile (· ≠ '/'), rest.dropWhile (· ≠ '/'))
  else if hasPrefixB ("https://".data) u then
    let rest := u.drop 8
    some ("https".data, rest.takeWhile (· ≠ '/'), rest.dropWhile (· ≠ '/'))
  else none

def imageExtensions : List Str :=
  [".jpg".data, ".jpeg".data, ".png".data, ".gif".data, ".webp".data,
   ".bmp".data, ".svg".data]

/-- `is_valid_image_url` of `bot/utils/helpers.py` (over the http/https
URLs this pipeline produces; for other inputs `urlparse` yields no
scheme/netloc and the function returns `False`). -/
def is_valid_image_url (u : Str) : Bool :=
  match urlSplit u with
  | none => false
  | some (_, netloc, path) =>
    if netloc = [] then false
    else
      let pathLower := lowerStr path
      imageExtensions.any (fun ext => hasSuffixB ext pathLower) ||
        containsSub ("image".data) pathLower || containsSub ("img".data) pathLower ||
        containsSub ("photo".data) pathLower

/-- `build_absolute_url` of `bot/utils/helpers.py`; the `urljoin` call
is external and modelled for the root-relative and document-relative
cases. -/
def build_absolute_url (base rel : Str) : Str :=
  if rel = [] then []
  else if hasPrefixB ("http://".data) rel || hasPrefixB ("https://".data) rel then rel
  else
    match urlSplit base with
    | some (scheme, netloc, path) =>
      if hasPrefixB ("/".data) rel then
        scheme ++ "://".data ++ netloc ++ rel
      else
        scheme ++ "://".data ++ netloc ++ (path.reverse.dropWhile (· ≠ '/')).reverse ++ rel
    | none => rel

/-- `Parser._is_sneaker_related`. -/
def sneakerKeywords : List Str :=
  ["nike".data, "adidas".data, "jordan".data, "yeezy".data, "new balance".data,
   "puma".data, "reebok".data, "vans".data, "converse".data, "asics".data,
   "sneaker".data, "shoe".data, "footwear".data, "release".data, "drop".data,
   "collab".data, "air max".data, "dunk".data, "trainer".data, "runner".data,
   "retro".data, "kicks".data, "sneakerhead".data]

def is_sneaker_related (text : Str) : Bool :=
  let tl := lowerStr text
  sneakerKeywords.any fun k => containsSub k tl

/-- A source descriptor (`config.SOURCES` entry): key, display name and
optional category. -/
structure Src where
  key : Str
  name : Str
  category : Option Str

/-- The `title` field of a JSON item: a dict with an optional
`rendered` member, or any other value, which the source stringifies. -/
inductive TitleField where
  | rendered (r : Option Str)
  | plain (s : Str)

/-- A WordPress-style JSON item, as the record of the accessor results
`_parse_json_post` reads: `link`, `title`, `date`/`modified`,
`_embedded["wp:featuredmedia"][0]["source_url"]` (when the media list is
present and non-empty) and `content["rendered"]` (`none` when `content`
is not a dict). -/
structure JsonItem where
  link : Option Str
  title : TitleField
  date : Option Str
  modified : Option Str
  featuredSourceUrl : Option Str
  contentRendered : Option Str

/-- An RSS `<item>`/`<entry>`, as the record of accessor results
`_parse_rss_item` reads.  `linkText`/`linkHref` model
`link_elem.get_text(strip=True) if link_elem.string else
link_elem.get("href")`; `descText` is the text the double soup pass
extracts from `<description>`; `pubParsed` is the result of the external
`parsedate_to_datetime` (`none`: absent or unparseable date element, for
which `parse_date_from_rss` falls back to the current UTC time). -/
structure RssLinkElem where
  hasString : Bool
  text : Str
  href : Option Str

structure RssItem where
  linkElem : Option RssLinkElem
  guidText : Option Str
  titleText : Option Str
  descText : Option Str
  descImgSrc : Option Str
  pubParsed : Option PyDateTime

/-- `parse_date_from_rss` of `bot/utils/time_utils.py`: the externally
parsed date, or `datetime.now(timezone.utc)` on any failure. -/
def parse_date_from_rss (now : Int) (it : RssItem) : PyDateTime :=
  it.pubParsed.getD (now, some 0)

/-- Normalised dedup key: `title.lower().strip()`. -/
def normTitleKey (title : Str) : Str := pyStrip (lowerStr title)

def optNonEmpty (a : Option Str) : Option Str :=
  match a with
  | some s => if s = [] then none else some s
  | none => none

/-- `item.get("date") or item.get("modified")` (empty strings are
falsy). -/
def jsonDateStr (it : JsonItem) : Option Str :=
  match optNonEmpty it.date with
  | some s => some s
  | none => optNonEmpty it.modified

/-- The link/title gate of `_parse_json_post` before the dedup check:
a falsy `link` or a cleaned title that is empty or shorter than 10
characters yields `None` (without touching `seen_titles`). -/
def jsonPre (it : JsonItem) : Option (Str × Str) :=
  let link := it.link.getD []
  if link = [] then none
  else
    let title :=
      match it.title with
      | .rendered r => clean_html (r.getD [])
      | .plain s => s
    if title = [] ∨ title.length < 10 then none else some (link, title)

/-- Timestamp extraction of `_parse_json_post`: an unparseable date
string raises inside the `try`, i.e. yields `None` *after* the dedup set
was updated. -/
def jsonTimestamp (now : Int) (it : JsonItem) : Option PyDateTime :=
  match jsonDateStr it with
  | none => some (now, some 0)
  | some ds => pyFromIsoformat (replaceZ ds)

def jsonImages (it : JsonItem) : List Str :=
  match it.featuredSourceUrl with
  | some u => if u ≠ [] ∧ is_valid_image_url u then [u] else []
  | none => []

def jsonContext (it : JsonItem) : Str :=
  match it.contentRendered with
  | some r => (clean_html r).take 500
  | none => []

def tagsToAssoc (t : Tags) : List (Str × List Str) :=
  [("brands".data, t.brands), ("models".data, t.models),
   ("types".data, t.types), ("colors".data, t.colors)]

/-- The `Post(...)` construction of `_parse_json_post` (`created_at` and
`updated_at` default to the naive `utcnow().isoformat()`). -/
def mkJsonPost (now : Int) (it : JsonItem) (src : Src) (link title : Str)
    (ts : PyDateTime) : Post :=
  let images := jsonImages it
  let context := jsonContext it
  let nowIso := isoRender (now, none)
  { id := make_post_id src.key link
    title := title.take 200
    link := link
    source := src.name
    category := src.category.getD ("sneakers".data)
    timestamp := isoRender ts
    context := context
    images := images
    original_images := images
    tags := tagsToAssoc (extract_tags title context)
    created_at := nowIso
    updated_at := nowIso }

/-- `Parser._parse_json_post`, with the `seen_titles` set threaded
explicitly (Python mutates it in place; additions survive a later raise
inside the same `try`). -/
def parse_json_post (now : Int) (it : JsonItem) (src : Src) (seen : List Str) :
    Option Post × List Str :=
  match jsonPre it with
  | none => (none, seen)
  | some (link, title) =>
    let key := normTitleKey title
    if key ∈ seen then (none, seen)
    else
      let seen2 := seen ++ [key]
      match jsonTimestamp now it with
      | none => (none, seen2)
      | some ts => (some (mkJsonPost now it src link title ts), seen2)

/-- Link resolution of `_parse_rss_item` (element text, `href`
attribute, `guid` fallback restricted to `http...` texts). -/
def rssLink (it : RssItem) : Option Str :=
  let fromElem : Option Str :=
    match it.linkElem with
    | some le => if le.hasString then some le.text else le.href
    | none => none
  match optNonEmpty fromElem with
  | some l => some l
  | none =>
    match it.guidText with
    | some g => if hasPrefixB ("http".data) g then some g else none
    | none => none

/-- The link/title gate of `_parse_rss_item` before the dedup check. -/
def rssPre (it : RssItem) : Option (Str × Str) :=
  match rssLink it with
  | none => none
  | some link =>
    match it.titleText with
    | none => none
    | some t0 =>
      let title := clean_html t0
      if title = [] ∨ title.length < 10 then none else some (link, title)

/-- Description and first-image extraction of `_parse_rss_item`. -/
def rssDescImages (it : RssItem) (link : Str) : Str × List Str :=
  match it.descText with
  | none => ([], [])
  | some dt =>
    let description := dt.take 500
    let images :=
      match it.descImgSrc with
      | some img =>
        if img ≠ [] then
          let absUrl := build_absolute_url link img
          if is_valid_image_url absUrl then [absUrl] else []
        else []
      | none => []
    (description, images)

/-- The `Post(...)` construction of `_parse_rss_item`. -/
def mkRssPost (now : Int) (it : RssItem) (src : Src) (link title : Str) : Post :=
  let pub := parse_date_from_rss now it
  let di := rssDescImages it link
  let nowIso := isoRender (now, none)
  { id := make_post_id src.key link
    title := title.take 200
    link := link
    source := src.name
    category := src.category.getD ("sneakers".data)
    timestamp := isoRender pub
    context := di.1
    images := di.2
    original_images := di.2
    tags := tagsToAssoc (extract_tags title di.1)
    created_at := nowIso
    updated_at := nowIso }

/-- `Parser._parse_rss_item` with the `seen_titles` set threaded
explicitly.  The sneaker-category keyword filter runs *after* the dedup
set was updated, so a filtered title still poisons the set. -/
def parse_rss_item (now : Int) (it : RssItem) (src : Src) (seen : List Str) :
    Option Post × List Str :=
  match rssPre it with
  | none => (none, seen)
  | some (link, title) =>
    let key := normTitleKey title
    if key ∈ seen then (none, seen)
    else
      let seen2 := seen ++ [key]
      if src.category = some ("sneakers".data) ∧ ¬ is_sneaker_related title then
        (none, seen2)
      else (some (mkRssPost now it src link title), seen2)

/-- One item of a fetch pass, from either kind of source.
`fetch_all_releases` threads a single `seen_titles` set through all
sources of the pass, JSON and RSS alike. -/
inductive FetchItem where
  | jsonItem (it : JsonItem) (src : Src)
  | rssItem (it : RssItem) (src : Src)

def parseStep (now : Int) (item : FetchItem) (seen : List Str) :
    Option Post × List Str :=
  match item with
  | .jsonItem it src => parse_json_post now it src seen
  | .rssItem it src => parse_rss_item now it src seen

/-- The normalised title key an item would be deduplicated on (`none`
when the item dies at the link/title gate, before dedup). -/
def itemTitleKey (item : FetchItem) : Option Str :=
  match item with
  | .jsonItem it _ => (jsonPre it).map fun pr => normTitleKey pr.2
  | .rssItem it _ => (rssPre it).map fun pr => normTitleKey pr.2

/-! ## Scan-loop lemmas -/

theorem mem_addSet {l : List Str} {c x : Str} :
    x ∈ addSet l c ↔ x ∈ l ∨ x = c := by
  unfold addSet
  split
  · rename_i h
    constructor
    · exact Or.inl
    · rintro (hx | rfl)
      · exact hx
      · exact h
  · simp

theorem nodup_addSet {l : List Str} {c : Str} (h : l.Nodup) :
    (addSet l c).Nodup := by
  unfold addSet
  split
  · exact h
  · rename_i hc
    simp [List.nodup_append, h, hc]

theorem mem_tagScanAux (p : Str → Bool) (es : List (Str × List Str))
    (acc : List Str) (x : Str) :
    x ∈ tagScanAux p es acc ↔
      x ∈ acc ∨ ∃ kws, (x, kws) ∈ es ∧ kws.any p = true := by
  induction es generalizing acc with
  | nil => simp [tagScanAux]
  | cons e es ih =>
    obtain ⟨tag, kws0⟩ := e
    rw [tagScanAux, ih]
    by_cases hc : kws0.any p = true ∧ tag ∉ acc
    · rw [if_pos hc]
      constructor
      · rintro (hx | ⟨kws, hk, ha⟩)
        · rcases List.mem_append.1 hx with hx | hx
          · exact Or.inl hx
          · simp only [List.mem_singleton] at hx
            exact Or.inr ⟨kws0, by simp [hx], hc.1⟩
        · exact Or.inr ⟨kws, List.mem_cons_of_mem _ hk, ha⟩
      · rintro (hx | ⟨kws, hk, ha⟩)
        · exact Or.inl (List.mem_append.2 (Or.inl hx))
        · rcases List.mem_cons.1 hk with hk | hk
          · obtain ⟨h1, h2⟩ := Prod.mk.injEq .. ▸ hk
            exact Or.inl (List.mem_append.2 (Or.inr (by simp [h1])))
          · exact Or.inr ⟨kws, hk, ha⟩
    · rw [if_neg hc]
      constructor
      · rintro (hx | ⟨kws, hk, ha⟩)
        · exact Or.inl hx
        · exact Or.inr ⟨kws, List.mem_cons_of_mem _ hk, ha⟩
      · rintro (hx | ⟨kws, hk, ha⟩)
        · exact Or.inl hx
        · rcases List.mem_cons.1 hk with hk | hk
          · obtain ⟨h1, h2⟩ := Prod.mk.injEq .. ▸ hk
            subst h1; subst h2
            rcases not_and_or.1 hc with hc1 | hc1
            · exact absurd ha hc1
            · exact Or.inl (not_not.1 hc1)
          · exact Or.inr ⟨kws, hk, ha⟩

theorem nodup_tagScanAux (p : Str → Bool) (es : List (Str × List Str))
    (acc : List Str) (h : acc.Nodup) : (tagScanAux p es acc).Nodup := by
  induction es generalizing acc with
  | nil => simpa [tagScanAux] using h
  | cons e es ih =>
    rw [tagScanAux]
    split
    · rename_i hc
      exact ih _ (by simp [List.nodup_append, h, hc.2])
    · exact ih _ h

theorem mem_colorScanAux (text : Str) (es : List (Str × Str))
    (acc : List Str) (x : Str) :
    x ∈ colorScanAux text es acc ↔
      x ∈ acc ∨ ∃ term, (term, x) ∈ es ∧ wordMatch term (lowerStr text) = true := by
  induction es generalizing acc with
  | nil => simp [colorScanAux]
  | cons e es ih =>
    obtain ⟨term0, eng0⟩ := e
    rw [colorScanAux, ih]
    by_cases hm0 : wordMatch term0 (lowerStr text) = true
    · rw [if_pos hm0]
      constructor
      · rintro (hx | ⟨term, hk, ha⟩)
        · rcases mem_addSet.1 hx with hx | rfl
          · exact Or.inl hx
          · exact Or.inr ⟨term0, by simp, hm0⟩
        · exact Or.inr ⟨term, List.mem_cons_of_mem _ hk, ha⟩
      · rintro (hx | ⟨term, hk, ha⟩)
        · exact Or.inl (mem_addSet.2 (Or.inl hx))
        · rcases List.mem_cons.1 hk with hk | hk
          · obtain ⟨h1, h2⟩ := Prod.mk.injEq .. ▸ hk
            exact Or.inl (mem_addSet.2 (Or.inr h2))
          · exact Or.inr ⟨term, hk, ha⟩
    · rw [if_neg hm0]
      constructor
      · rintro (hx | ⟨term, hk, ha⟩)
        · exact Or.inl hx
        · exact Or.inr ⟨term, List.mem_cons_of_mem _ hk, ha⟩
      · rintro (hx | ⟨term, hk, ha⟩)
        · exact Or.inl hx
        · rcases List.mem_cons.1 hk with hk | hk
          · obtain ⟨h1, h2⟩ := Prod.mk.injEq .. ▸ hk
            subst h1; subst h2
            exact absurd ha hm0
          · exact Or.inr ⟨term, hk, ha⟩

theorem nodup_colorScanAux (text : Str) (es : List (Str × Str))
    (acc : List Str) (h : acc.Nodup) : (colorScanAux text es acc).Nodup := by
  induction es generalizing acc with
  | nil => simpa [colorScanAux] using h
  | cons e es ih =>
    rw [colorScanAux]
    split
    · exact ih _ (nodup_addSet h)
    · exact ih _ h

theorem nodup_extract_colors (text : Str) : (extract_colors text).Nodup := by
  have h1 := nodup_colorScanAux text colorMap [] List.nodup_nil
  rcases Bool.eq_false_or_eq_true (containsSub ("triple black".data) text) with hb | hb <;>
    rcases Bool.eq_false_or_eq_true
        (containsSub ("triple white".data) text || containsSub ("core white".data) text)
      with hw | hw <;>
    simp only [extract_colors, hb, hw, Bool.false_eq_true, if_false, if_true] <;>
    set B := colorScanAux text colorMap [] with hB <;>
    first
      | exact h1
      | exact nodup_addSet h1
      | exact nodup_addSet (nodup_addSet h1)

theorem mem_extract_colors (text : Str) (x : Str) :
    x ∈ extract_colors text ↔
      (∃ term, (term, x) ∈ colorMap ∧ wordMatch term (lowerStr text) = true) ∨
      (containsSub ("triple black".data) text = true ∧ x = "black".data) ∨
      ((containsSub ("triple white".data) text ||
        containsSub ("core white".data) text) = true ∧ x = "white".data) := by
  rcases Bool.eq_false_or_eq_true (containsSub ("triple black".data) text) with hb | hb <;>
    rcases Bool.eq_false_or_eq_true
        (containsSub ("triple white".data) text || containsSub ("core white".data) text)
      with hw | hw <;>
    simp only [extract_colors, hb, hw, Bool.false_eq_true, if_true, if_false,
      mem_addSet, mem_colorScanAux, List.not_mem_nil, false_or, true_and,
      false_and, or_false, eq_self_iff_true, or_assoc]

/-- Claim C8: `extract_tags` is deterministic (a pure function of its
two text inputs: identical inputs give identical tag mappings), and each
of the four category lists in its result is duplicate-free. -/
theorem extract_tags_deterministic_nodup :
    (∀ t1 c1 t2 c2 : Str, t1 = t2 → c1 = c2 → extract_tags t1 c1 = extract_tags t2 c2) ∧
    (∀ title context : Str,
      (extract_tags title context).brands.Nodup ∧
      (extract_tags title context).models.Nodup ∧
      (extract_tags title context).types.Nodup ∧
      (extract_tags title context).colors.Nodup) := by
  refine ⟨?_, ?_⟩
  · rintro t1 c1 t2 c2 rfl rfl
    rfl
  · intro title context
    exact ⟨nodup_tagScanAux _ _ _ List.nodup_nil, nodup_tagScanAux _ _ _ List.nodup_nil,
      nodup_tagScanAux _ _ _ List.nodup_nil, nodup_extract_colors _⟩

/-- Witness for C8 at a concrete input. -/
theorem extract_tags_deterministic_nodup_witness :
    extract_tags ("Nike Dunk Low Retro".data) [] = extract_tags ("Nike Dunk Low Retro".data) [] ∧
    (extract_tags ("Nike Dunk Low Retro".data) []).types.Nodup :=
  ⟨extract_tags_deterministic_nodup.1 _ _ _ _ rfl rfl,
   (extract_tags_deterministic_nodup.2 _ _).2.2.1⟩

/-- Claim C6 (amended): membership in the four tag lists of
`extract_tags` is characterised per category — brands and models are
populated exactly when some configured keyword word-boundary-matches the
lowercased, punctuation-stripped text; release types exactly when some
configured keyword occurs as a plain substring of the lowercased
(un-stripped) text; colours exactly when a colour term
word-boundary-matches the lowercased (un-stripped) text or one of the
two composite special-case phrases occurs in it.  Absence of matches
yields empty lists (the left-to-right direction of each equivalence). -/
theorem extract_tags_membership (title context : Str) :
    (∀ b, b ∈ (extract_tags title context).brands ↔
      ∃ kws, (b, kws) ∈ BRAND_KEYWORDS ∧
        kws.any (fun k => wordMatch k (normalizeText (combinedLower title context))) = true) ∧
    (∀ m, m ∈ (extract_tags title context).models ↔
      ∃ kws, (m, kws) ∈ MODEL_KEYWORDS ∧
        kws.any (fun k => wordMatch k (normalizeText (combinedLower title context))) = true) ∧
    (∀ ty, ty ∈ (extract_tags title context).types ↔
      ∃ kws, (ty, kws) ∈ RELEASE_TYPES ∧
        kws.any (fun k => containsSub k (combinedLower title context)) = true) ∧
    (∀ c, c ∈ (extract_tags title context).colors ↔
      ((∃ term, (term, c) ∈ colorMap ∧
          wordMatch term (lowerStr (combinedLower title context)) = true) ∨
       (containsSub ("triple black".data) (combinedLower title context) = true ∧
          c = "black".data) ∨
       ((containsSub ("triple white".data) (combinedLower title context) ||
          containsSub ("core white".data) (combinedLower title context)) = true ∧
          c = "white".data))) := by
  refine ⟨?_, ?_, ?_, ?_⟩
  · intro b
    simpa [extract_tags, tagScan] using mem_tagScanAux _ BRAND_KEYWORDS [] b
  · intro m
    simpa [extract_tags, tagScan] using mem_tagScanAux _ MODEL_KEYWORDS [] m
  · intro ty
    simpa [extract_tags, tagScan] using mem_tagScanAux _ RELEASE_TYPES [] ty
  · intro c
    simpa [extract_tags] using mem_extract_colors (combinedLower title context) c

/-- Counterexample to C6 as stated: on the title `"dog"`, the release
type `retro` is extracted because the keyword `"og"` occurs as a plain
substring of `"dog "`, although no word-boundary regex match exists (the
claim's semantics, `claimExtractTags`, yields no type); and on
`"xtriple blacky"` the colour `black` is extracted through the composite
substring special case although no colour term word-boundary-matches. -/
theorem extract_tags_claim_counterexample :
    ((extract_tags ("dog".data) []).types = ["retro".data] ∧
      (claimExtractTags ("dog".data) []).types = []) ∧
    ((extract_tags ("xtriple blacky".data) []).colors = ["black".data] ∧
      (claimExtractTags ("xtriple blacky".data) []).colors = []) := by
  decide

/-- Witness for C6 at a concrete input. -/
theorem extract_tags_membership_witness :
    "retro".data ∈ (extract_tags ("Nike Dunk Low Retro".data) []).types ↔
      ∃ kws, ("retro".data, kws) ∈ RELEASE_TYPES ∧
        kws.any (fun k =>
          containsSub k (combinedLower ("Nike Dunk Low Retro".data) [])) = true :=
  (extract_tags_membership ("Nike Dunk Low Retro".data) []).2.2.1 ("retro".data)

/-! ## Caption length (claim C2) -/

theorem sneakersHashtagScan_mem (tl : Str) (tbl : List (Str × Str)) :
    sneakersHashtagScan tl tbl ∈ tbl.map Prod.snd ++ [HASHTAGS_sneakers_default] := by
  induction tbl with
  | nil => simp [sneakersHashtagScan]
  | cons e es ih =>
    rw [sneakersHashtagScan]
    split_ifs <;> simp_all

theorem fashionHashtagScan_mem (tl : Str) (tbl : List (Str × Str)) :
    fashionHashtagScan tl tbl ∈ tbl.map Prod.snd ++ [HASHTAGS_fashion_default] := by
  induction tbl with
  | nil => simp [fashionHashtagScan]
  | cons e es ih =>
    rw [fashionHashtagScan]
    split_ifs <;> simp_all

/-- Every hashtag string `get_hashtags` can return is one of the fixed
configuration strings, all of length at most 64. -/
theorem get_hashtags_length (t c : Str) : (get_hashtags t c).length ≤ 64 := by
  unfold get_hashtags
  split_ifs
  · have hm := sneakersHashtagScan_mem (lowerStr t) HASHTAGS_sneakers
    have hall : ∀ x ∈ HASHTAGS_sneakers.map Prod.snd ++ [HASHTAGS_sneakers_default],
        x.length ≤ 64 := by decide
    exact hall _ hm
  · have hm := fashionHashtagScan_mem (lowerStr t) HASHTAGS_fashion
    have hall : ∀ x ∈ HASHTAGS_fashion.map Prod.snd ++ [HASHTAGS_fashion_default],
        x.length ≤ 64 := by decide
    exact hall _ hm
  · decide

/-- Claim C2: for every `Post`, the channel caption built by
`_build_caption` never exceeds the configured 1024-character caption
limit, and the hashtag string always appears un-truncated as a suffix of
the output — in particular in the truncation branch. -/
theorem build_caption_length_and_hashtags (p : Post) :
    (build_caption p true).length ≤ max_caption_length ∧
    get_hashtags p.title p.category <:+ build_caption p true := by
  have hh := get_hashtags_length p.title p.category
  constructor
  · obtain ⟨hs1, hs2⟩ := length_pySliceTo
      (pyOrStr p.description (pyOrStr p.context p.title))
      ((max_caption_length : Int) - (get_hashtags p.title p.category).length - 10)
    have h0 : (0 : Int) ≤
        (max_caption_length : Int) - (get_hashtags p.title p.category).length - 10 := by
      simp only [max_caption_length]
      omega
    have hs3 := hs2 h0
    clear hs2
    rw [build_caption]
    simp only [if_true]
    split_ifs <;>
      simp only [List.length_append, List.length_cons, List.length_nil,
        max_caption_length] at * <;>
      omega
  · rw [build_caption]
    simp only [if_true]
    split_ifs <;> exact List.suffix_append _ _

/-! ## Publish bookkeeping (claims C1 and C3) -/

/-- Claim C1 (amended): after a successful `publish_post`, the post's id
is no key of the live `pending` map, its link is in `sent_links`, the
post's status is `published` with `published_at` set; and the id is
absent from `favorites` provided it occurred there at most once
(`list.remove` deletes only the first occurrence). -/
theorem publish_post_success_effects (now_iso : Str) (st : LState) (p : Post)
    (hfav : st.favorites.count p.id ≤ 1) :
    p.id ∉ ((publish_post_success now_iso st p).1.pending.map Prod.fst) ∧
    p.id ∉ (publish_post_success now_iso st p).1.favorites ∧
    p.link ∈ (publish_post_success now_iso st p).1.sent_links ∧
    (publish_post_success now_iso st p).2.status = "published".data ∧
    (publish_post_success now_iso st p).2.published_at = some now_iso := by
  refine ⟨?_, ?_, ?_, rfl, rfl⟩
  · simp only [publish_post_success, publish_post_state_update, List.mem_map]
    rintro ⟨e, he, heq⟩
    exact (of_decide_eq_true (List.mem_filter.1 he).2) heq
  · simp only [publish_post_success, publish_post_state_update]
    split
    · rename_i hmem
      intro hin
      have hc := List.count_erase_self p.id st.favorites
      have h1 : 1 ≤ List.count p.id st.favorites := List.count_pos_iff.2 hmem
      have h2 : 1 ≤ List.count p.id (st.favorites.erase p.id) :=
        List.count_pos_iff.2 hin
      omega
    · rename_i hmem
      exact hmem
  · simp only [publish_post_success, publish_post_state_update]
    split
    · rename_i hmem
      exact hmem
    · exact List.mem_append.2 (Or.inr (by simp))

/-- Witness for C1 at a concrete state and post. -/
def c1post : Post :=
  { id := "p1".data, title := "T title".data, link := "http://l".data,
    source := "S".data, created_at := [], updated_at := [] }

theorem publish_post_success_effects_witness :
    "p1".data ∉ ((publish_post_success []
        { sent_links := [], pending := [("p1".data, J.null)],
          favorites := ["p1".data], auto_publish := false,
          last_auto_publish := none } c1post).1.pending.map Prod.fst) ∧
    "p1".data ∉ (publish_post_success []
        { sent_links := [], pending := [("p1".data, J.null)],
          favorites := ["p1".data], auto_publish := false,
          last_auto_publish := none } c1post).1.favorites ∧
    "http://l".data ∈ (publish_post_success []
        { sent_links := [], pending := [("p1".data, J.null)],
          favorites := ["p1".data], auto_publish := false,
          last_auto_publish := none } c1post).1.sent_links ∧
    (publish_post_success []
        { sent_links := [], pending := [("p1".data, J.null)],
          favorites := ["p1".data], auto_publish := false,
          last_auto_publish := none } c1post).2.status = "published".data ∧
    (publish_post_success []
        { sent_links := [], pending := [("p1".data, J.null)],
          favorites := ["p1".data], auto_publish := false,
          last_auto_publish := none } c1post).2.published_at = some [] :=
  publish_post_success_effects [] _ c1post (by decide)

/-- Counterexample to C1 as stated: in a live state whose `favorites`
list holds the post id twice (no state-load validation forbids this),
`list.remove` deletes only the first occurrence, so after a successful
`publish_post` the id is still a member of `favorites`, contradicting
the claim's "p.id is not an element of the favorites list". -/
theorem publish_post_favorites_counterexample :
    "p1".data ∈ (publish_post_success []
        { sent_links := [], pending := [],
          favorites := ["p1".data, "p1".data], auto_publish := false,
          last_auto_publish := none } c1post).1.favorites := by
  decide

def c3post : Post :=
  { id := "x".data, title := "T title".data, link := "http://b".data,
    source := "S".data, created_at := [], updated_at := [] }

def c3state : LState :=
  { sent_links := List.replicate 1000 ("a".data), pending := [],
    favorites := [], auto_publish := false, last_auto_publish := none }

/-- Claim C3 (the code bug): a successful publish appends the link to
the live `sent_links` but the `[-500:]` trim is computed on the local
shallow copy only (`state = _state.copy()` rebinds `state["sent_links"]`
without touching `_state`), so the live — and persisted — list grows to
1001 entries: above the claimed 1000-entry bound, and not trimmed to the
most recent 500.  The nightly `cleanup_job` trim, by contrast, reaches
the live state via `update_state` and cuts the same list to 500. -/
theorem publish_post_sent_links_untrimmed :
    (publish_post_state_update [] c3state c3post).sent_links.length = 1001 ∧
    (cleanup_trim_sent_links
        (publish_post_state_update [] c3state c3post)).sent_links.length = 500 := by
  have hmem : c3post.link ∉ c3state.sent_links := by
    show c3post.link ∉ List.replicate 1000 ("a".data)
    rw [List.mem_replicate]
    rintro ⟨-, h⟩
    exact absurd h (by decide)
  have h1 : (publish_post_state_update [] c3state c3post).sent_links =
      List.replicate 1000 ("a".data) ++ [c3post.link] := by
    simp only [publish_post_state_update]
    rw [if_neg hmem]
    rfl
  have h2 : (publish_post_state_update [] c3state c3post).sent_links.length = 1001 := by
    rw [h1]
    simp [List.length_append, List.length_replicate]
  refine ⟨h2, ?_⟩
  rw [cleanup_trim_sent_links, h2]
  rw [if_pos (by omega)]
  simp [h2]

/-! ## `Post` serialisation round-trip (claim C10) -/

theorem decodeStrs_map (l : List Str) : decodeStrs (l.map J.str) = some l := by
  induction l with
  | nil => rfl
  | cons x xs ih => simp [decodeStrs, J.asStr, ih]

theorem decodeTagEntries_map (l : List (Str × List Str)) :
    decodeTagEntries (l.map fun e => (e.1, J.arr (e.2.map J.str))) = some l := by
  induction l with
  | nil => rfl
  | cons e es ih => simp [decodeTagEntries, decodeStrList, decodeStrs_map, ih]

/-- Claim C10 (amended): for every typed `Post` whose `timestamp` is
non-empty, `from_dict (to_dict p)` reconstructs `p` exactly, whatever
the clock reads during reconstruction; `to_dict` omits exactly the
`None`-valued fields (`scheduled_time`, `published_at`), and every other
field key is always present. -/
theorem from_dict_to_dict_roundtrip (now : Str) (p : Post) (h : p.timestamp ≠ []) :
    from_dict now (to_dict p) = some p ∧
    (alookup ("scheduled_time".data) (to_dict p)).isSome = p.scheduled_time.isSome ∧
    (alookup ("published_at".data) (to_dict p)).isSome = p.published_at.isSome ∧
    (∀ k, k ∈ ["id".data, "title".data, "link".data, "source".data,
        "category".data, "timestamp".data, "context".data, "description".data,
        "images".data, "original_images".data, "generated_images".data,
        "tags".data, "status".data, "needs_parsing".data, "created_at".data,
        "updated_at".data, "views".data, "likes".data] →
      (alookup k (to_dict p)).isSome = true) := by
  obtain ⟨i, t, l, src, cat, ts, ctx, desc, im, oim, gim, tg, st, np, sc, cre,
    upd, pub, vw, lk⟩ := p
  simp only [ne_eq] at h
  refine ⟨?_, ?_, ?_, ?_⟩
  · cases sc <;> cases pub <;>
      simp [from_dict, to_dict, postEntriesFull, uidFixup, fdStrPart, fdListPart,
        fdMiscPart, fieldStrD, fieldOptStr, fieldStrListD, fieldTagsD, fieldBoolD,
        fieldIntD, alookup, optStrJ, J.asStr, J.isNull, decodeStrList, decodeTagMap,
        decodeStrs_map, decodeTagEntries_map, postInitNormalize, h]
  · cases sc <;> cases pub <;> rfl
  · cases sc <;> cases pub <;> rfl
  · intro k hk
    fin_cases hk <;> cases sc <;> cases pub <;> rfl

/-- Witness for C10 at a concrete post. -/
def c10post : Post :=
  { id := "i1".data, title := "t1".data, link := "l1".data, source := "s1".data,
    timestamp := "2024-01-01T00:00:00".data, images := ["http://a/x.png".data],
    tags := [("brands".data, ["nike".data])], scheduled_time := none,
    created_at := "c".data, updated_at := "u".data,
    published_at := some "p".data, views := 3, likes := 4 }

theorem from_dict_to_dict_roundtrip_witness :
    from_dict ("now".data) (to_dict c10post) = some c10post ∧
    (alookup ("scheduled_time".data) (to_dict c10post)).isSome =
      c10post.scheduled_time.isSome ∧
    (alookup ("published_at".data) (to_dict c10post)).isSome =
      c10post.published_at.isSome ∧
    (∀ k, k ∈ ["id".data, "title".data, "link".data, "source".data,
        "category".data, "timestamp".data, "context".data, "description".data,
        "images".data, "original_images".data, "generated_images".data,
        "tags".data, "status".data, "needs_parsing".data, "created_at".data,
        "updated_at".data, "views".data, "likes".data] →
      (alookup k (to_dict c10post)).isSome = true) :=
  from_dict_to_dict_roundtrip ("now".data) c10post (by decide)

/-- Counterexample to C10 as stated: a `Post` whose `timestamp` field is
the empty string (a value of the declared type `str`) does not round
trip — `from_dict` runs `__post_init__`, which replaces the empty
timestamp by the current clock reading, so the reconstructed post
differs from `p`. -/
def c10empty : Post :=
  { id := "i1".data, title := "t1".data, link := "l1".data, source := "s1".data,
    timestamp := [], created_at := "c".data, updated_at := "u".data }

theorem from_dict_to_dict_counterexample :
    from_dict ("2024-01-01T00:00:00".data) (to_dict c10empty) ≠ some c10empty := by
  decide

/-! ## Schedule-time parsing (claim C4) -/

/-- The `HH:MM` branch returns the next local occurrence of that wall
time strictly after the local now, at most one day ahead. -/
theorem schedHM_bounds (off now : Int) (hh mm : Nat) (h1 : hh ≤ 23) (h2 : mm ≤ 59) :
    (schedHM off now hh mm + off) % 86400 = 3600 * hh + 60 * mm ∧
    now + off < schedHM off now hh mm + off ∧
    schedHM off now hh mm + off ≤ now + off + 86400 := by
  simp only [schedHM]
  rw [Int.fdiv_eq_ediv _ (by norm_num)]
  split_ifs with hle <;> refine ⟨?_, ?_, ?_⟩ <;> omega

/-- Claim C4 (amended): (1) an in-range `HH:MM` input resolves to the
next local occurrence of that wall time strictly after the local now
(same day if still ahead, else the next day), converted to UTC; (2) an
in-range `+Nh` input resolves to exactly `now + N` hours, independently
of the timezone offset; (3) an in-range `DD.MM HH:MM` input uses the
current local year unless that local datetime is strictly before now, in
which case the year is incremented — and when the date is invalid in the
selected year (e.g. Feb 29), the `datetime` constructor or the
`replace(year+1)` raises and the parse returns `None`. -/
theorem parse_schedule_time_spec :
    (∀ (text : Str) (off now : Int) (hh mm : Nat),
      parseHM (pyStrip text) = some (hh, mm) → hh ≤ 23 → mm ≤ 59 →
      parse_schedule_time text off now = some (schedHM off now hh mm) ∧
      (schedHM off now hh mm + off) % 86400 = 3600 * hh + 60 * mm ∧
      now + off < schedHM off now hh mm + off ∧
      schedHM off now hh mm + off ≤ now + off + 86400) ∧
    (∀ (text : Str) (off now : Int) (n : Nat),
      parseHM (pyStrip text) = none → parseDM (pyStrip text) = none →
      parseRel (lowerStr (pyStrip text)) = some (n, 'h') → 1 ≤ n → n ≤ 24 →
      parse_schedule_time text off now = some (now + 3600 * n)) ∧
    (∀ (text : Str) (off now : Int) (d mo hh mm : Nat),
      parseHM (pyStrip text) = none →
      parseDM (pyStrip text) = some (d, mo, hh, mm) →
      1 ≤ d → d ≤ 31 → 1 ≤ mo → mo ≤ 12 → hh ≤ 23 → mm ≤ 59 →
      parse_schedule_time text off now = schedDM off now d mo hh mm ∧
      (∀ y, y = yearOfDay (Int.fdiv (now + off) 86400) →
        (isValidDate y mo d = false → schedDM off now d mo hh mm = none) ∧
        (isValidDate y mo d = true →
          (¬ (86400 * daysFromCivil y mo d + 3600 * hh + 60 * mm - off < now) →
            schedDM off now d mo hh mm =
              some (86400 * daysFromCivil y mo d + 3600 * hh + 60 * mm - off)) ∧
          (86400 * daysFromCivil y mo d + 3600 * hh + 60 * mm - off < now →
            isValidDate (y + 1) mo d = true →
            schedDM off now d mo hh mm =
              some (86400 * daysFromCivil (y + 1) mo d + 3600 * hh + 60 * mm - off)) ∧
          (86400 * daysFromCivil y mo d + 3600 * hh + 60 * mm - off < now →
            isValidDate (y + 1) mo d = false →
            schedDM off now d mo hh mm = none)))) := by
  refine ⟨?_, ?_, ?_⟩
  · intro text off now hh mm hHM hh23 hm59
    refine ⟨?_, schedHM_bounds off now hh mm hh23 hm59⟩
    simp only [parse_schedule_time, hHM]
    rw [if_pos ⟨hh23, hm59⟩]
  · intro text off now n hHM hDM hRel h1 h24
    have hr : schedRel now n 'h' = some (now + 3600 * n) := by
      unfold schedRel
      rw [if_pos ⟨rfl, h1, h24⟩]
    simp only [parse_schedule_time, hHM, hDM, hRel, hr]
  · intro text off now d mo hh mm hHM hDM hd1 hd31 hm1 hm12 hh23 hm59
    constructor
    · simp only [parse_schedule_time, hHM, hDM]
      rw [if_pos ⟨hd1, hd31, hm1, hm12, hh23, hm59⟩]
    · rintro y rfl
      constructor
      · intro hbad
        simp only [schedDM, hbad, Bool.false_eq_true, if_false]
      · intro hok
        refine ⟨?_, ?_, ?_⟩
        · intro hnotpast
          simp only [schedDM, hok, if_true]
          rw [if_neg hnotpast]
        · intro hpast hok2
          simp only [schedDM, hok, hok2, if_true]
          rw [if_pos hpast]
        · intro hpast hbad2
          simp only [schedDM, hok, hbad2, Bool.false_eq_true, if_true, if_false]
          rw [if_pos hpast]

/-- Seconds since the epoch of 2024-03-01T00:00:00 UTC. -/
def t2024mar1 : Int := 19783 * 86400

/-- Counterexample to C4 as stated: on 2024-03-01 (UTC clock and zone),
the input `"29.02 10:00"` is a well-formed `DD.MM HH:MM` whose date is
valid in the current year 2024 and already past, so by the claim the
year should be incremented to 2025 and a datetime returned — but
February 29 does not exist in 2025, the `replace(year=year+1)` raises
`ValueError`, and `parse_schedule_time` returns `None`. -/
theorem parse_schedule_time_feb29_counterexample :
    parseDM (pyStrip ("29.02 10:00".data)) = some (29, 2, 10, 0) ∧
    yearOfDay (Int.fdiv (t2024mar1 + 0) 86400) = 2024 ∧
    isValidDate 2024 2 29 = true ∧
    86400 * daysFromCivil 2024 2 29 + 3600 * 10 + 60 * 0 - 0 < t2024mar1 ∧
    parse_schedule_time ("29.02 10:00".data) 0 t2024mar1 = none := by
  decide

/-- Witness for C4 at concrete inputs: local clock 19:00 (UTC offset
+3h), input `"18:30"`; a `"+2h"` input under an arbitrary offset; and
`"25.12 15:00"` on 2024-03-01. -/
theorem parse_schedule_time_spec_witness :
    parse_schedule_time ("18:30".data) 10800 57600 = some (schedHM 10800 57600 18 30) ∧
    parse_schedule_time ("+2h".data) 12345 1000 = some (1000 + 3600 * 2) ∧
    parse_schedule_time ("25.12 15:00".data) 0 t2024mar1 = schedDM 0 t2024mar1 25 12 15 0 :=
  ⟨(parse_schedule_time_spec.1 _ 10800 57600 18 30 (by decide) (by decide) (by decide)).1,
   parse_schedule_time_spec.2.1 _ 12345 1000 2 (by decide) (by decide) (by decide)
     (by decide) (by decide),
   (parse_schedule_time_spec.2.2 _ 0 t2024mar1 25 12 15 0 (by decide) (by decide)
     (by decide) (by decide) (by decide) (by decide) (by decide) (by decide)).1⟩

/-! ## Cleanup of pending posts (claim C7) -/

theorem insertDescBy_perm {α : Type} (key : α → Str) (x : α) (l : List α) :
    (insertDescBy key x l).Perm (x :: l) := by
  induction l with
  | nil => exact List.Perm.refl _
  | cons y ys ih =>
    rw [insertDescBy]
    split
    · exact (ih.cons y).trans (List.Perm.swap x y ys)
    · exact List.Perm.refl _

theorem sortDescBy_perm {α : Type} (key : α → Str) (l : List α) :
    (sortDescBy key l).Perm l := by
  induction l with
  | nil => exact List.Perm.refl _
  | cons z zs ih =>
    rw [sortDescBy]
    exact (insertDescBy_perm key z _).trans (ih.cons z)

theorem pairwise_insertDescBy {α : Type} (key : α → Str) (x : α) (l : List α)
    (h : l.Pairwise fun a b => key b ≤ key a) :
    (insertDescBy key x l).Pairwise fun a b => key b ≤ key a := by
  induction l with
  | nil => simp [insertDescBy]
  | cons y ys ih =>
    rw [insertDescBy]
    obtain ⟨hy, hys⟩ := List.pairwise_cons.1 h
    split
    · rename_i hlt
      refine List.pairwise_cons.2 ⟨?_, ih hys⟩
      intro z hz
      rcases List.mem_cons.1 ((insertDescBy_perm key x ys).mem_iff.1 hz) with rfl | hz2
      · exact le_of_lt hlt
      · exact hy z hz2
    · rename_i hnlt
      refine List.pairwise_cons.2 ⟨?_, h⟩
      intro z hz
      rcases List.mem_cons.1 hz with rfl | hz2
      · exact le_of_not_lt hnlt
      · exact le_trans (hy z hz2) (le_of_not_lt hnlt)

theorem pairwise_sortDescBy {α : Type} (key : α → Str) (l : List α) :
    (sortDescBy key l).Pairwise fun a b => key b ≤ key a := by
  induction l with
  | nil => simp [sortDescBy]
  | cons z zs ih =>
    rw [sortDescBy]
    exact pairwise_insertDescBy key z _ ih

/-- In an association list with duplicate-free keys, two members with
the same key are the same entry (the `dict` invariant of the pending
map). -/
theorem eq_of_mem_nodup_keys {β : Type} {l : List (Str × β)}
    (h : (l.map Prod.fst).Nodup) {e e' : Str × β}
    (he : e ∈ l) (he' : e' ∈ l) (hk : e.1 = e'.1) : e = e' := by
  induction l with
  | nil => cases he
  | cons a l ih =>
    rw [List.map_cons, List.nodup_cons] at h
    rcases List.mem_cons.1 he with rfl | he2 <;>
      rcases List.mem_cons.1 he' with rfl | he2' 
    · rfl
    · exact absurd (hk ▸ List.mem_map_of_mem Prod.fst he2') h.1
    · exact absurd (hk ▸ List.mem_map_of_mem Prod.fst he2) h.1
    · exact ih h.2 he2 he2'

/-- Claim C7 (amended): on a pending map with duplicate-free keys whose
timestamp fields are strings (or absent), the cleanup (i) removes every
entry whose age check fires — aware timestamps older than
`MAX_POST_AGE_DAYS` whole days; (ii) keeps a sub-permutation of the
age-filtered entries, truncated to `MAX_PENDING_POSTS` entries when the
filtered map is larger; (iii) every kept entry's timestamp string is
lexicographically `≥` that of every dropped age-valid entry; and (iv)
returns the total number of removed entries. -/
theorem clean_old_posts_spec (now : Int) (pending : List (Str × J))
    (hkeys : ∀ e ∈ pending, (pendSortKey e.2).isSome = true)
    (hnodup : (pending.map Prod.fst).Nodup) :
    (clean_old_posts now pending).isSome = true ∧
    (∀ pr, clean_old_posts now pending = some pr →
      (∀ e ∈ pending, pendRemovable now e.2 = true → e.1 ∉ pr.1.map Prod.fst) ∧
      pr.1.Subperm (pending.filter fun e => !pendRemovable now e.2) ∧
      pr.1.length =
        min (pending.filter fun e => !pendRemovable now e.2).length MAX_PENDING_POSTS ∧
      (∀ a ∈ pr.1, ∀ b ∈ pending.filter fun e => !pendRemovable now e.2,
        b ∉ pr.1 → (pendSortKey b.2).getD [] ≤ (pendSortKey a.2).getD []) ∧
      pr.2 = (pending.length - (pending.filter fun e => !pendRemovable now e.2).length) +
        ((pending.filter fun e => !pendRemovable now e.2).length - MAX_PENDING_POSTS)) := by
  have hall : (pending.filter fun e => !pendRemovable now e.2).all
      (fun e => (pendSortKey e.2).isSome) = true := by
    rw [List.all_eq_true]
    intro e he
    exact hkeys e (List.mem_of_mem_filter he)
  have hchar : clean_old_posts now pending =
      if MAX_PENDING_POSTS < (pending.filter fun e => !pendRemovable now e.2).length then
        some ((sortDescBy (fun e => (pendSortKey e.2).getD [])
            (pending.filter fun e => !pendRemovable now e.2)).take MAX_PENDING_POSTS,
          (pending.length - (pending.filter fun e => !pendRemovable now e.2).length)
            + ((pending.filter fun e => !pendRemovable now e.2).length - MAX_PENDING_POSTS))
      else some (pending.filter fun e => !pendRemovable now e.2,
          pending.length - (pending.filter fun e => !pendRemovable now e.2).length) := by
    simp only [clean_old_posts, hall, if_true]
  have hB : ∀ pr, clean_old_posts now pending = some pr →
      (∀ a ∈ pr.1, a ∈ (pending.filter fun e => !pendRemovable now e.2)) →
      ∀ e ∈ pending, pendRemovable now e.2 = true → e.1 ∉ pr.1.map Prod.fst := by
    intro pr hpr hsub e he hrem hmem
    obtain ⟨e', he', hk⟩ := List.mem_map.1 hmem
    have he'f := hsub e' he'
    have he'p := List.mem_of_mem_filter he'f
    have heq : e' = e := eq_of_mem_nodup_keys hnodup he'p he hk
    subst heq
    have hkeep := List.of_mem_filter he'f
    simp [hrem] at hkeep
  by_cases hlen : MAX_PENDING_POSTS <
      (pending.filter fun e => !pendRemovable now e.2).length
  · rw [hchar, if_pos hlen]
    refine ⟨rfl, ?_⟩
    intro pr hpr
    injection hpr with hpr
    subst hpr
    have hperm := sortDescBy_perm (fun e => (pendSortKey e.2).getD [])
      (pending.filter fun e => !pendRemovable now e.2)
    have hsub : ∀ a ∈ (sortDescBy (fun e => (pendSortKey e.2).getD [])
        (pending.filter fun e => !pendRemovable now e.2)).take MAX_PENDING_POSTS,
        a ∈ (pending.filter fun e => !pendRemovable now e.2) := by
      intro a ha
      exact hperm.subset (List.take_subset _ _ ha)
    refine ⟨hB _ (by rw [hchar, if_pos hlen]) hsub, ?_, ?_, ?_, rfl⟩
    · exact ((List.take_sublist _ _).subperm).trans hperm.subperm
    · rw [List.length_take, hperm.length_eq]
      omega
    · intro a ha b hb hbnot
      have hbs : b ∈ sortDescBy (fun e => (pendSortKey e.2).getD [])
          (pending.filter fun e => !pendRemovable now e.2) := hperm.mem_iff.2 hb
      rw [← List.take_append_drop MAX_PENDING_POSTS
        (sortDescBy (fun e => (pendSortKey e.2).getD [])
          (pending.filter fun e => !pendRemovable now e.2))] at hbs
      rcases List.mem_append.1 hbs with hbs | hbs
      · exact absurd hbs hbnot
      · have hpw := pairwise_sortDescBy (fun e => (pendSortKey e.2).getD [])
          (pending.filter fun e => !pendRemovable now e.2)
        rw [← List.take_append_drop MAX_PENDING_POSTS
          (sortDescBy (fun e => (pendSortKey e.2).getD [])
            (pending.filter fun e => !pendRemovable now e.2))] at hpw
        exact (List.pairwise_append.1 hpw).2.2 a ha b hbs
  · rw [hchar, if_neg hlen]
    refine ⟨rfl, ?_⟩
    intro pr hpr
    injection hpr with hpr
    subst hpr
    refine ⟨hB _ (by rw [hchar, if_neg hlen]) (fun a ha => ha), List.Subperm.refl _,
      ?_, ?_, ?_⟩
    · dsimp only
      omega
    · intro a ha b hb hbnot
      exact absurd hb hbnot
    · dsimp only
      omega

/-- The instant of a stored timestamp string (naive timestamps read as
UTC — the only "age" a reader can mean for them). -/
def instantOfTs (s : Str) : Option Int :=
  (pyFromIsoformat (replaceZ s)).map fun dt => dt.1 - dt.2.getD 0

def c7rec (ts : Str) : J := .obj [("timestamp".data, .str ts)]

def c7tsAged : Str := "2024-02-22T23:00:00+00:00".data

def c7tsNaive : Str := "2020-01-01T00:00:00".data

def c7tsOld : Str := "2024-01-02T10:00:00+05:00".data

def c7tsNew : Str := "2024-01-02T07:00:00+00:00".data

/-- Seconds since the epoch of 2024-01-03T00:00:00 UTC. -/
def t2024jan3 : Int := 19725 * 86400

def c7big : List (Str × J) :=
  ((List.range 100).map fun i => (Nat.toDigits 10 i, c7rec c7tsOld)) ++
    [("x".data, c7rec c7tsNew)]

/-- Counterexample to C7 as stated, in three parts, all on the clock
2024-03-01 resp. 2024-01-03. (a) An entry 7 days and 1 hour old — older
than `MAX_POST_AGE_DAYS` — survives the cleanup, because
`timedelta.days` floors to 7, which is not `> 7`.  (b) An entry from
2020 whose timestamp is naive (as every WordPress-sourced and every
default `utcnow()` timestamp is) survives forever, because subtracting a
naive datetime from the aware `now` raises and the `except` keeps the
entry.  (c) With 101 fresh entries, the truncation keeps the 100
entries whose timestamp *strings* sort lexicographically highest — and
drops the entry `x` that is chronologically the most recent of all
(07:00 UTC beats 10:00+05:00 = 05:00 UTC), contrary to the claim's "the
MAX_PENDING_POSTS entries with the most recent timestamps". -/
theorem clean_old_posts_counterexample :
    ((clean_old_posts t2024mar1 [("a".data, c7rec c7tsAged)]).map
        (fun pr => (pr.1.map Prod.fst, pr.2)) = some (["a".data], 0) ∧
      instantOfTs c7tsAged = some 1708642800 ∧
      MAX_POST_AGE_DAYS * 86400 < t2024mar1 - 1708642800) ∧
    ((clean_old_posts t2024mar1 [("b".data, c7rec c7tsNaive)]).map
        (fun pr => (pr.1.map Prod.fst, pr.2)) = some (["b".data], 0) ∧
      instantOfTs c7tsNaive = some 1577836800 ∧
      MAX_POST_AGE_DAYS * 86400 < t2024mar1 - 1577836800) ∧
    ((clean_old_posts t2024jan3 c7big).map
        (fun pr => (pr.1.map Prod.fst, pr.2)) =
          some ((List.range 100).map (fun i => Nat.toDigits 10 i), 1) ∧
      instantOfTs c7tsOld = some 1704171600 ∧
      instantOfTs c7tsNew = some 1704178800 ∧
      (1704171600 : Int) < 1704178800) := by
  decide

/-- Witness for C7 at a concrete pending map. -/
theorem clean_old_posts_spec_witness :
    (clean_old_posts t2024mar1 [("a".data, c7rec c7tsAged)]).isSome = true :=
  (clean_old_posts_spec t2024mar1 [("a".data, c7rec c7tsAged)]
    (by decide) (by decide)).1

/-! ## State loading (claim C9) -/

def jEntries : J → List (Str × J)
  | .obj es => es
  | _ => []

theorem alookup_isSome_of_mem {β : Type} {k : Str} {v : β} {l : List (Str × β)}
    (h : (k, v) ∈ l) : (alookup k l).isSome = true := by
  induction l with
  | nil => cases h
  | cons e es ih =>
    rw [alookup]
    rcases List.mem_cons.1 h with rfl | h2
    · rw [if_pos rfl]
      rfl
    · split
      · rfl
      · exact ih h2

theorem alookup_append {β : Type} (k : Str) (l1 l2 : List (Str × β)) :
    alookup k (l1 ++ l2) =
      match alookup k l1 with
      | some v => some v
      | none => alookup k l2 := by
  induction l1 with
  | nil => simp [alookup]
  | cons e es ih =>
    rw [List.cons_append, alookup, alookup]
    split
    · rfl
    · exact ih

theorem alookup_asetKey_same {β : Type} (k : Str) (v : β) (l : List (Str × β))
    (h : (alookup k l).isSome = true) : alookup k (asetKey k v l) = some v := by
  induction l with
  | nil => cases h
  | cons e es ih =>
    rw [asetKey]
    split
    · rename_i he
      rw [alookup, if_pos rfl]
    · rename_i he
      rw [alookup, if_neg he]
      rw [alookup, if_neg he] at h
      exact ih h

theorem alookup_asetKey_ne {β : Type} (k k' : Str) (v : β) (l : List (Str × β))
    (h : k' ≠ k) : alookup k (asetKey k' v l) = alookup k l := by
  induction l with
  | nil => rfl
  | cons e es ih =>
    rw [asetKey]
    split
    · rename_i he
      rw [alookup, alookup]
      subst he
      rw [if_neg h, if_neg h]
    · rw [alookup, alookup]
      split
      · rfl
      · exact ih

/-- Every default key is present after the merge. -/
theorem mem_default_merged (kvs : List (Str × J)) :
    ∀ e ∈ get_default_state, (alookup e.1 (mergeDefaults kvs)).isSome = true := by
  intro e he
  obtain ⟨k1, v1⟩ := e
  rw [mergeDefaults, alookup_append]
  split
  · rfl
  · rename_i hnone
    rcases he2 : alookup k1 kvs with _ | v
    · exact alookup_isSome_of_mem (List.mem_filter.2 ⟨he, by simp [he2]⟩)
    · rw [he2] at hnone
      cases hnone

theorem clean_old_posts_mem (now : Int) (pending : List (Str × J))
    (pr : List (Str × J) × Nat)
    (hpr : clean_old_posts now pending = some pr) : ∀ a ∈ pr.1, a ∈ pending := by
  simp only [clean_old_posts] at hpr
  split at hpr
  · split at hpr
    · injection hpr with h
      subst h
      intro a ha
      exact List.mem_of_mem_filter
        ((sortDescBy_perm _ _).subset (List.take_subset _ _ ha))
    · exact Option.noConfusion hpr
  · injection hpr with h
    subst h
    intro a ha
    exact List.mem_of_mem_filter ha

/-- Claim C9: `load_state` is a total function of what it reads; a read
or deserialisation error yields the default state; the result is always
an object (a state dictionary); and on the success path (a JSON object
whose `pending` — merged in as `{}` when missing — is an object, and
whose cleanup pass does not raise) every default key is present, every
key other than `pending` is exactly as in the merged input, and every
surviving pending entry is a dict carrying `id`, `title` and `link`. -/
theorem load_state_spec (now : Int) :
    load_state now .ioError = defaultStateJ ∧
    load_state now .badJson = defaultStateJ ∧
    (∀ inp, (load_state now inp).isObj = true) ∧
    (∀ kvs pend,
      alookup ("pending".data) (mergeDefaults kvs) = some (.obj pend) →
      (clean_old_posts now (pend.filter fun e => hasRequiredKeys e.2)).isSome = true →
      (∀ e ∈ get_default_state,
        (alookup e.1 (jEntries (load_state now (.parsed (.obj kvs))))).isSome = true) ∧
      (∀ k, k ≠ "pending".data →
        alookup k (jEntries (load_state now (.parsed (.obj kvs)))) =
          alookup k (mergeDefaults kvs)) ∧
      (∀ pend2, alookup ("pending".data)
          (jEntries (load_state now (.parsed (.obj kvs)))) = some (.obj pend2) →
        ∀ e ∈ pend2, hasRequiredKeys e.2 = true)) := by
  refine ⟨rfl, rfl, ?_, ?_⟩
  · intro inp
    cases inp with
    | ioError => rfl
    | badJson => rfl
    | missing =>
      simp only [load_state, loadProcess]
      split
      · split <;> rfl
      · rfl
      · rfl
    | parsed j =>
      cases j <;> try rfl
      simp only [load_state, loadProcess]
      split
      · split <;> rfl
      · rfl
      · rfl
  · intro kvs pend hpend hclean
    obtain ⟨pr, hpr⟩ := Option.isSome_iff_exists.1 hclean
    have hres : load_state now (.parsed (.obj kvs)) =
        .obj (asetKey ("pending".data) (.obj pr.1) (mergeDefaults kvs)) := by
      simp only [load_state, loadProcess, hpend, hpr]
    rw [hres]
    refine ⟨?_, ?_, ?_⟩
    · intro e he
      by_cases hk : e.1 = "pending".data
      · rw [jEntries, hk,
          alookup_asetKey_same _ _ _ (by rw [hpend]; rfl)]
        rfl
      · rw [jEntries, alookup_asetKey_ne _ _ _ _ (fun h => hk h.symm)]
        exact mem_default_merged kvs e he
    · intro k hk
      rw [jEntries, alookup_asetKey_ne _ _ _ _ (fun h => hk h.symm)]
    · intro pend2 hpend2 e he
      rw [jEntries, alookup_asetKey_same _ _ _ (by rw [hpend]; rfl)] at hpend2
      injection hpend2 with h
      injection h with h
      subst h
      have hmem := clean_old_posts_mem now _ pr hpr e he
      exact (List.mem_filter.1 hmem).2

/-- Witness for C9 at a concrete parsed state file. -/
def c9rec : J :=
  .obj [("id".data, .str ("i".data)), ("title".data, .str ("t".data)),
    ("link".data, .str ("l".data)), ("timestamp".data, .str c7tsNew)]

def c9kvs : List (Str × J) :=
  [("pending".data, .obj [("u".data, c9rec), ("v".data, .num 3)]),
   ("extra".data, .num 5)]

theorem load_state_spec_witness :
    (alookup ("favorites".data)
      (jEntries (load_state t2024jan3 (.parsed (.obj c9kvs))))).isSome = true :=
  ((load_state_spec t2024jan3).2.2.2 c9kvs [("u".data, c9rec), ("v".data, .num 3)]
      (by rfl) (by rfl)).1
    ("favorites".data, J.arr []) (by simp [get_default_state])

/-! ## Per-pass title dedup (claim C5) -/

theorem parse_json_post_seen_mono (now : Int) (it : JsonItem) (src : Src)
    (seen : List Str) : seen ⊆ (parse_json_post now it src seen).2 := by
  cases hpre : jsonPre it with
  | none => simp [parse_json_post, hpre]
  | some pr =>
    obtain ⟨link, title⟩ := pr
    by_cases hk : normTitleKey title ∈ seen
    · simp [parse_json_post, hpre, hk]
    · cases hts : jsonTimestamp now it <;>
        simp [parse_json_post, hpre, hk, hts, List.subset_append_left]

theorem parse_json_post_dup (now : Int) (it : JsonItem) (src : Src)
    (seen : List Str) (pr : Str × Str) (hpre : jsonPre it = some pr)
    (hk : normTitleKey pr.2 ∈ seen) :
    parse_json_post now it src seen = (none, seen) := by
  obtain ⟨link, title⟩ := pr
  simp [parse_json_post, hpre, hk]

theorem parse_json_post_success (now : Int) (it : JsonItem) (src : Src)
    (seen : List Str) (h : (parse_json_post now it src seen).1.isSome = true) :
    ∃ pr, jsonPre it = some pr ∧
      normTitleKey pr.2 ∈ (parse_json_post now it src seen).2 := by
  cases hpre : jsonPre it with
  | none => simp [parse_json_post, hpre] at h
  | some pr =>
    obtain ⟨link, title⟩ := pr
    by_cases hk : normTitleKey title ∈ seen
    · simp [parse_json_post, hpre, hk] at h
    · cases hts : jsonTimestamp now it with
      | none => simp [parse_json_post, hpre, hk, hts] at h
      | some ts =>
        refine ⟨(link, title), rfl, ?_⟩
        simp [parse_json_post, hpre, hk, hts]

theorem parse_rss_item_seen_mono (now : Int) (it : RssItem) (src : Src)
    (seen : List Str) : seen ⊆ (parse_rss_item now it src seen).2 := by
  cases hpre : rssPre it with
  | none => simp [parse_rss_item, hpre]
  | some pr =>
    obtain ⟨link, title⟩ := pr
    by_cases hk : normTitleKey title ∈ seen
    · simp [parse_rss_item, hpre, hk]
    · simp only [parse_rss_item, hpre]
      rw [if_neg hk]
      split <;> simp [List.subset_append_left]

theorem parse_rss_item_dup (now : Int) (it : RssItem) (src : Src)
    (seen : List Str) (pr : Str × Str) (hpre : rssPre it = some pr)
    (hk : normTitleKey pr.2 ∈ seen) :
    parse_rss_item now it src seen = (none, seen) := by
  obtain ⟨link, title⟩ := pr
  simp [parse_rss_item, hpre, hk]

theorem parse_rss_item_success (now : Int) (it : RssItem) (src : Src)
    (seen : List Str) (h : (parse_rss_item now it src seen).1.isSome = true) :
    ∃ pr, rssPre it = some pr ∧
      normTitleKey pr.2 ∈ (parse_rss_item now it src seen).2 := by
  cases hpre : rssPre it with
  | none => simp [parse_rss_item, hpre] at h
  | some pr =>
    obtain ⟨link, title⟩ := pr
    by_cases hk : normTitleKey title ∈ seen
    · simp [parse_rss_item, hpre, hk] at h
    · refine ⟨(link, title), rfl, ?_⟩
      simp only [parse_rss_item, hpre]
      rw [if_neg hk]
      split <;> simp

/-- Claim C5: within one fetch pass (a single `seen_titles` set threaded
through all JSON and RSS sources alike), (i) a parse step never shrinks
the seen set; (ii) a step that yields a `Post` leaves its normalised
title key (lowercased, stripped) in the set; (iii) a step whose
normalised title key is already in the set yields `None` and leaves the
set unchanged; and therefore (iv) of two items with equal normalised
titles, a later one parsed after a successful earlier one yields
`None`. -/
theorem parse_pass_dedup :
    (∀ (now : Int) (item : FetchItem) (seen : List Str),
      seen ⊆ (parseStep now item seen).2) ∧
    (∀ (now : Int) (item : FetchItem) (seen : List Str),
      (parseStep now item seen).1.isSome = true →
      (itemTitleKey item).isSome = true ∧
      ∀ k, itemTitleKey item = some k → k ∈ (parseStep now item seen).2) ∧
    (∀ (now : Int) (item : FetchItem) (seen : List Str) (k : Str),
      itemTitleKey item = some k → k ∈ seen →
      parseStep now item seen = (none, seen)) ∧
    (∀ (now1 now2 : Int) (i1 i2 : FetchItem) (seen : List Str),
      (parseStep now1 i1 seen).1.isSome = true →
      itemTitleKey i2 = itemTitleKey i1 →
      (parseStep now2 i2 (parseStep now1 i1 seen).2).1 = none) := by
  have h1 : ∀ (now : Int) (item : FetchItem) (seen : List Str),
      seen ⊆ (parseStep now item seen).2 := by
    intro now item seen
    cases item with
    | jsonItem it src => exact parse_json_post_seen_mono now it src seen
    | rssItem it src => exact parse_rss_item_seen_mono now it src seen
  have h2 : ∀ (now : Int) (item : FetchItem) (seen : List Str),
      (parseStep now item seen).1.isSome = true →
      (itemTitleKey item).isSome = true ∧
      ∀ k, itemTitleKey item = some k → k ∈ (parseStep now item seen).2 := by
    intro now item seen hs
    cases item with
    | jsonItem it src =>
      obtain ⟨pr, hpre, hmem⟩ := parse_json_post_success now it src seen hs
      refine ⟨by simp [itemTitleKey, hpre], ?_⟩
      intro k hk
      simp only [itemTitleKey, hpre, Option.map_some] at hk
      injection hk with hk
      subst hk
      exact hmem
    | rssItem it src =>
      obtain ⟨pr, hpre, hmem⟩ := parse_rss_item_success now it src seen hs
      refine ⟨by simp [itemTitleKey, hpre], ?_⟩
      intro k hk
      simp only [itemTitleKey, hpre, Option.map_some] at hk
      injection hk with hk
      subst hk
      exact hmem
  have h3 : ∀ (now : Int) (item : FetchItem) (seen : List Str) (k : Str),
      itemTitleKey item = some k → k ∈ seen →
      parseStep now item seen = (none, seen) := by
    intro now item seen k hk hmem
    cases item with
    | jsonItem it src =>
      cases hpre : jsonPre it with
      | none => simp [itemTitleKey, hpre] at hk
      | some pr =>
        simp only [itemTitleKey, hpre, Option.map_some] at hk
        injection hk with hk
        exact parse_json_post_dup now it src seen pr hpre (by simp only [] at hk; rw [hk]; exact hmem)
    | rssItem it src =>
      cases hpre : rssPre it with
      | none => simp [itemTitleKey, hpre] at hk
      | some pr =>
        simp only [itemTitleKey, hpre, Option.map_some] at hk
        injection hk with hk
        exact parse_rss_item_dup now it src seen pr hpre (by simp only [] at hk; rw [hk]; exact hmem)
  refine ⟨h1, h2, h3, ?_⟩
  intro now1 now2 i1 i2 seen hs heq
  obtain ⟨hks, hmem⟩ := h2 now1 i1 seen hs
  obtain ⟨k, hk⟩ := Option.isSome_iff_exists.1 hks
  have hk2 : itemTitleKey i2 = some k := heq.trans hk
  rw [h3 now2 i2 _ k hk2 (hmem k hk)]

/-- Witness for C5: the same JSON item parsed twice in one pass — the
second step, seeded with the first step's seen set, yields `None`. -/
def c5src : Src :=
  { key := "sneakernews".data, name := "SneakerNews".data,
    category := some ("sneakers".data) }

def c5item : FetchItem :=
  .jsonItem
    { link := some ("http://a.com/x".data),
      title := .plain ("Nike Dunk Low Retro Release".data),
      date := none, modified := none, featuredSourceUrl := none,
      contentRendered := none } c5src

theorem parse_pass_dedup_witness :
    (parseStep 1 c5item ((parseStep 0 c5item []).2)).1 = none :=
  parse_pass_dedup.2.2.2 0 1 c5item c5item [] (by rfl) rfl
